import Mathlib

/-! nasp-kernel-module: the CSR bridge (`src/csr.c`)

A shallow embedding of `csr.c` and the properties of its marshaling protocol
(`csr_gen`) and of its per-core registry (`init_csr_for`).

Conventions of the embedding.

* An `i32` is kept as its 32-bit pattern, a natural number below `2 ^ 32`; the
  constant `-1` is the pattern `2 ^ 32 - 1`.  The typedef of `i32` lives in
  `runtime.h`, outside the sources at hand, so whether `pointers[i] <= 1` is a
  signed or an unsigned comparison is a parameter (`i32_signed`) of the model.
* The guest is a state machine over an arbitrary state type `σ`.  Every call
  that `csr_gen` issues through `wasm_vm_call_direct` is appended to a trace.
* `csr_result result;` is declared without an initialiser: the content of
  that stack slot on entry is a parameter (`uninit`) of `csr_gen`.
-/

namespace Csr

/-! ## Machine integers -/

/-- The cast `(i32) x` on bit patterns. -/
def i32_of (x : Nat) : Nat := x % 2 ^ 32

/-- The bit pattern of the `i32` constant `-1`. -/
def MINUS_ONE : Nat := 2 ^ 32 - 1

/-- The value of a 32-bit pattern read as a signed (two's complement) integer. -/
def i32_val (p : Nat) : Int :=
  if p % 2 ^ 32 < 2 ^ 31 then ((p % 2 ^ 32 : Nat) : Int) else ((p % 2 ^ 32 : Nat) : Int) - 2 ^ 32

/-- The test `pointers[i] <= 1` of the cleanup loop, for a signed or an
unsigned `i32`. -/
def le_one (i32_signed : Bool) (p : Nat) : Bool :=
  if i32_signed then decide (i32_val p ≤ 1) else decide (p ≤ 1)

/-! ## The guest virtual machine, seen from `csr.c` -/

/-- The struct `wasm_vm_result`: a payload (`data->i32`, `data->i64`) and an
error string, `none` standing for `NULL`. -/
structure wasm_vm_result where
  data : Nat
  err : Option String
  deriving DecidableEq, Repr

/-- One guest call issued by `csr_gen`, with what the guest answered. -/
inductive Event where
  | malloc (size : Nat) (res : wasm_vm_result)
  | generate (args : List Nat) (res : wasm_vm_result)
  | free (ptr : Nat) (res : wasm_vm_result)
  deriving DecidableEq, Repr

/-- The runtime primitives `csr.c` uses on a bound `csr_module`, as functions
of the guest state: `wasm_vm_call_direct` on each of the three function
handles, and the `strncpy` into `wasm_vm_memory`. -/
structure csr_vm (σ : Type) where
  call_malloc : σ → Nat → wasm_vm_result × σ
  call_free : σ → Nat → wasm_vm_result × σ
  call_generate : σ → List Nat → wasm_vm_result × σ
  strncpy_memory : σ → Nat → String → Nat → σ

/-- The guest state together with the calls issued so far. -/
structure World (σ : Type) where
  vm : σ
  trace : List Event

/-- The function `csr_malloc`: `wasm_vm_call_direct(csr->vm, csr->csr_malloc, size)`. -/
def csr_malloc {σ : Type} (rt : csr_vm σ) (w : World σ) (size : Nat) : wasm_vm_result × World σ :=
  let r := rt.call_malloc w.vm size
  (r.1, { vm := r.2, trace := w.trace ++ [Event.malloc size r.1] })

/-- The function `csr_free`: `wasm_vm_call_direct(csr->vm, csr->csr_free, ptr)`. -/
def csr_free {σ : Type} (rt : csr_vm σ) (w : World σ) (ptr : Nat) : wasm_vm_result × World σ :=
  let r := rt.call_free w.vm ptr
  (r.1, { vm := r.2, trace := w.trace ++ [Event.free ptr r.1] })

/-- The call `wasm_vm_call_direct(csr->vm, csr->generate_csr, ...)` of `csr_gen`. -/
def call_generate_csr {σ : Type} (rt : csr_vm σ) (w : World σ) (args : List Nat) :
    wasm_vm_result × World σ :=
  let r := rt.call_generate w.vm args
  (r.1, { vm := r.2, trace := w.trace ++ [Event.generate args r.1] })

/-- The libc `strlen` of a field; the string holds the bytes before the
terminating NUL. -/
def strlen (s : String) : Nat := s.utf8ByteSize

/-- The function `alloc_and_copy_parameter`: the guest address of the copy, or
`-1` when the guest allocator reported an error. -/
def alloc_and_copy_parameter {σ : Type} (rt : csr_vm σ) (str : String) (str_length : Nat)
    (w : World σ) : Nat × World σ :=
  let malloc_result := csr_malloc rt w str_length
  if malloc_result.1.err.isSome then
    (MINUS_ONE, malloc_result.2)
  else
    let addr := i32_of malloc_result.1.data
    (addr, { malloc_result.2 with
               vm := rt.strncpy_memory malloc_result.2.vm addr str str_length })

/-! ## `csr_gen` -/

/-- The struct `csr_result`. -/
structure csr_result where
  csr_ptr : Nat
  csr_len : Nat
  err : Option String
  deriving DecidableEq, Repr

/-- The struct `csr_parameters`: five optional C strings, `none` for `NULL`. -/
structure csr_parameters where
  subject : Option String
  dns : Option String
  uri : Option String
  email : Option String
  ip : Option String
  deriving DecidableEq, Repr

/-- The locals of `csr_gen` (`result`, `i`, `pointers`) and the world. -/
structure Frame (σ : Type) where
  w : World σ
  result : csr_result
  i : Nat
  pointers : List Nat

/-- The macro `ALLOCATE_AND_CHECK(field)`.  `Except.error` is `goto bail`;
`Except.ok` carries on with `field_ptr` and `field_len`. -/
def ALLOCATE_AND_CHECK {σ : Type} (rt : csr_vm σ) (name : String) (field : Option String)
    (f : Frame σ) : Except (Frame σ) (Frame σ × Nat × Nat) :=
  match field with
  | none => Except.ok (f, 0, 0)
  | some s =>
    let field_len := i32_of (strlen s)
    let r := alloc_and_copy_parameter rt s field_len f.w
    if r.1 = MINUS_ONE then
      Except.error { f with
        w := r.2
        result := { f.result with
                    err := some ("error during allocating ptr with length for " ++ name) } }
    else
      Except.ok ({ f with w := r.2, pointers := f.pointers.set f.i r.1, i := f.i + 1 },
                 r.1, field_len)

/-- The part of `csr_gen` from its entry to the label `bail`: the five
`ALLOCATE_AND_CHECK` blocks, the generate call and the decoding of its packed
result.  The value is the state in which the label is reached. -/
def csr_gen_to_bail {σ : Type} (rt : csr_vm σ) (vm : σ) (uninit : csr_result)
    (priv_key_buff_ptr priv_key_buff_len : Nat) (parameters : csr_parameters) : Frame σ :=
  let f0 : Frame σ :=
    { w := { vm := vm, trace := [] }, result := uninit, i := 0, pointers := List.replicate 8 0 }
  match ALLOCATE_AND_CHECK rt "subject" parameters.subject f0 with
  | Except.error f => f
  | Except.ok (f1, subject_ptr, subject_len) =>
  match ALLOCATE_AND_CHECK rt "dns" parameters.dns f1 with
  | Except.error f => f
  | Except.ok (f2, dns_ptr, dns_len) =>
  match ALLOCATE_AND_CHECK rt "uri" parameters.uri f2 with
  | Except.error f => f
  | Except.ok (f3, uri_ptr, uri_len) =>
  match ALLOCATE_AND_CHECK rt "email" parameters.email f3 with
  | Except.error f => f
  | Except.ok (f4, email_ptr, email_len) =>
  match ALLOCATE_AND_CHECK rt "ip" parameters.ip f4 with
  | Except.error f => f
  | Except.ok (f5, ip_ptr, ip_len) =>
    let vm_result := call_generate_csr rt f5.w
      [priv_key_buff_ptr, priv_key_buff_len, subject_ptr, subject_len, dns_ptr, dns_len,
       uri_ptr, uri_len, email_ptr, email_len, ip_ptr, ip_len]
    if vm_result.1.err.isSome then
      { f5 with w := vm_result.2, result := { f5.result with err := vm_result.1.err } }
    else if vm_result.1.data % 2 ^ 64 = 0 then
      { f5 with
        w := vm_result.2
        result := { f5.result with err := some "could not generate csr: empty value" } }
    else
      { f5 with
        w := vm_result.2
        result := { f5.result with
                    csr_len := i32_of (vm_result.1.data % 2 ^ 64)
                    csr_ptr := i32_of (vm_result.1.data % 2 ^ 64 / 2 ^ 32) } }

/-- The loop `for (i = i - 1; i >= 0; i--)` after the label `bail`;
`free_loop sgn rt n f` runs it for the indices `n - 1, ..., 0`. -/
def free_loop {σ : Type} (i32_signed : Bool) (rt : csr_vm σ) : Nat → Frame σ → Frame σ
  | 0, f => f
  | k + 1, f =>
    if le_one i32_signed (f.pointers.getD k 0) then
      free_loop i32_signed rt k f
    else
      let free_result := csr_free rt f.w (f.pointers.getD k 0)
      if free_result.1.err.isSome then
        free_loop i32_signed rt k
          { f with w := free_result.2, result := { f.result with err := free_result.1.err } }
      else
        free_loop i32_signed rt k { f with w := free_result.2 }

/-- The function `csr_gen`.  The C return value is the field `result` of the
frame returned here; `w.trace` lists the guest calls the run issued, in order. -/
def csr_gen {σ : Type} (i32_signed : Bool) (rt : csr_vm σ) (vm : σ) (uninit : csr_result)
    (priv_key_buff_ptr priv_key_buff_len : Nat) (parameters : csr_parameters) : Frame σ :=
  let f := csr_gen_to_bail rt vm uninit priv_key_buff_ptr priv_key_buff_len parameters
  free_loop i32_signed rt f.i f

/-! ## A scripted guest, for concrete runs -/

/-- A guest that answers its calls, whatever they are, with the next entry of
a script, and with success and payload `0` once the script is exhausted. -/
def scripted : csr_vm (List wasm_vm_result) where
  call_malloc := fun s _ => (s.headD { data := 0, err := none }, s.tail)
  call_free := fun s _ => (s.headD { data := 0, err := none }, s.tail)
  call_generate := fun s _ => (s.headD { data := 0, err := none }, s.tail)
  strncpy_memory := fun s _ _ _ => s

/-- A successful answer with the given payload. -/
def ok (data : Nat) : wasm_vm_result := { data := data, err := none }

/-- A failed answer with the given message. -/
def failed (msg : String) : wasm_vm_result := { data := 0, err := some msg }

/-- Parameters with no field present. -/
def no_parameters : csr_parameters :=
  { subject := none, dns := none, uri := none, email := none, ip := none }

/-! ## The per-core registry and `init_csr_for` -/

/-- The struct `wasm_vm`, of which `csr.c` reads the core (`wasm_vm_cpu`). -/
structure wasm_vm where
  cpu : Nat
  deriving DecidableEq, Repr

/-- The struct `wasm_vm_module`, of which `csr.c` reads the name. -/
structure wasm_vm_module where
  name : String
  deriving DecidableEq, Repr

/-- The struct `csr_module`: the guest VM and the three function handles,
`none` standing for `NULL`. -/
structure csr_module where
  vm : wasm_vm
  csr_malloc : Option Nat
  csr_free : Option Nat
  generate_csr : Option Nat
  deriving DecidableEq, Repr

/-- The accessor `wasm_vm_cpu`. -/
def wasm_vm_cpu (vm : wasm_vm) : Nat := vm.cpu

/-- The constant `wasm_vm_ok`. -/
def wasm_vm_ok : wasm_vm_result := { data := 0, err := none }

/-- The constructor `wasm_vm_error(msg)`. -/
def wasm_vm_error (msg : String) : wasm_vm_result := { data := 0, err := some msg }

/-- The locals `result` and `csr` of `init_csr_for`. -/
structure InitFrame where
  result : wasm_vm_result
  csr : csr_module

/-- Modelled from the spec: the macro `wasm_vm_try_get_function(VAR, CALL)` of
`runtime.h`, which is not among the sources.  Section 4.2 of the spec gives
its effect inside `init_csr_for`: a lookup that resolves stores its handle,
and a lookup that fails makes the whole binding fail with that lookup's error.
Here: `result = CALL`; on an error control goes to the label `error`
(`Except.error`), otherwise `VAR = result.data->function`.  A lookup is a
query without side effect, so whether the lookups after a failed one are still
made cannot be observed. -/
def wasm_vm_try_get_function (store : csr_module → Option Nat → csr_module)
    (call : wasm_vm_result) (l : InitFrame) : Except InitFrame InitFrame :=
  if call.err.isSome then
    Except.error { l with result := call }
  else
    Except.ok { result := call, csr := store l.csr (some call.data) }

/-- The three `wasm_vm_try_get_function` lines of `init_csr_for`; the value
is the state in which the label `error` is reached. -/
def init_csr_for_to_error (wasm_vm_get_function : wasm_vm → String → String → wasm_vm_result)
    (vm : wasm_vm) (module : wasm_vm_module) (l0 : InitFrame) : InitFrame :=
  match wasm_vm_try_get_function (fun c h => { c with generate_csr := h })
      (wasm_vm_get_function vm module.name "csr_gen") l0 with
  | Except.error l => l
  | Except.ok l1 =>
  match wasm_vm_try_get_function (fun c h => { c with csr_malloc := h })
      (wasm_vm_get_function vm module.name "csr_malloc") l1 with
  | Except.error l => l
  | Except.ok l2 =>
  match wasm_vm_try_get_function (fun c h => { c with csr_free := h })
      (wasm_vm_get_function vm module.name "csr_free") l2 with
  | Except.error l => l
  | Except.ok l3 => l3

/-- The function `init_csr_for`, on the registry `csr_modules` as a map from
core to slot.  `wasm_vm_get_function` and the outcome of `kzalloc` are
parameters, and so is the content `uninit` of `result` on entry.  The local
`csr` points into the slot of the core: what is stored through it is written
back to the slot on success, and on failure the slot is cleared. -/
def init_csr_for (wasm_vm_get_function : wasm_vm → String → String → wasm_vm_result)
    (kzalloc_ok : Bool) (uninit : wasm_vm_result) (csr_modules : Nat → Option csr_module)
    (vm : wasm_vm) (module : wasm_vm_module) : wasm_vm_result × (Nat → Option csr_module) :=
  let cpu := wasm_vm_cpu vm
  let fresh : csr_module := { vm := vm, csr_malloc := none, csr_free := none, generate_csr := none }
  let slot : Option csr_module :=
    match csr_modules cpu with
    | some csr => some csr
    | none => if kzalloc_ok then some fresh else none
  match slot with
  | none => (wasm_vm_error "could not allocate memory", csr_modules)
  | some csr =>
    let l := init_csr_for_to_error wasm_vm_get_function vm module { result := uninit, csr := csr }
    if l.result.err.isSome then
      (l.result, Function.update csr_modules cpu none)
    else
      (wasm_vm_ok, Function.update csr_modules cpu (some l.csr))

/-! ## Reading a run: fields, traces -/

/-- The five optional fields with the names the macro stringifies, in the
order of the `ALLOCATE_AND_CHECK` blocks. -/
def fields (p : csr_parameters) : List (String × Option String) :=
  [("subject", p.subject), ("dns", p.dns), ("uri", p.uri), ("email", p.email), ("ip", p.ip)]

/-- The `i32` lengths of the present fields of a list of fields, in order. -/
def present_lens (fs : List (String × Option String)) : List Nat :=
  fs.filterMap (fun x => x.2.map (fun s => i32_of (strlen s)))

/-- The (pointer, length) pairs of a list of fields, flattened: `0, 0` for an
absent field, and for a present one the next address of `addrs` and the `i32`
length of the field. -/
def pair_args : List (Option String) → List Nat → List Nat
  | [], _ => []
  | none :: fs, addrs => 0 :: 0 :: pair_args fs addrs
  | some s :: fs, a :: addrs => a :: i32_of (strlen s) :: pair_args fs addrs
  | some s :: fs, [] => 0 :: i32_of (strlen s) :: pair_args fs []

/-- An allocator call, from its size and answer. -/
def malloc_event (x : Nat × wasm_vm_result) : Event := Event.malloc x.1 x.2

/-- A free call, from its address and answer. -/
def free_event (x : Nat × wasm_vm_result) : Event := Event.free x.1 x.2

/-- The address an allocator call returned, as `data->i32`. -/
def returned_addr (x : Nat × wasm_vm_result) : Nat := i32_of x.2.data

/-- The addresses passed to the guest free function, in call order. -/
def freed_ptrs (t : List Event) : List Nat :=
  t.filterMap (fun e => match e with
    | Event.free p _ => some p
    | _ => none)

/-- The addresses `csr_gen` recorded in `pointers`: those of the allocator
calls that returned no error and not the pattern of `-1`. -/
def recorded_addrs (t : List Event) : List Nat :=
  t.filterMap (fun e => match e with
    | Event.malloc _ r =>
      if r.err.isSome ∨ i32_of r.data = MINUS_ONE then none else some (i32_of r.data)
    | _ => none)

/-- The errors of the failed free calls, in call order. -/
def free_errs (t : List Event) : List String :=
  t.filterMap (fun e => match e with
    | Event.free _ r => r.err
    | _ => none)

/-- The allocator calls of a trace, each with its size and its answer, in
call order. -/
def malloc_calls (t : List Event) : List (Nat × wasm_vm_result) :=
  t.filterMap (fun e => match e with
    | Event.malloc n r => some (n, r)
    | _ => none)

/-- The argument lists of the generate calls of a trace, in call order. -/
def generate_calls (t : List Event) : List (List Nat) :=
  t.filterMap (fun e => match e with
    | Event.generate args _ => some args
    | _ => none)

/-- The error of the last failed free call, if a free call failed. -/
def last_free_err (t : List Event) : Option String := (free_errs t).getLast?

/-- The first error if there is one, else the second. -/
def first_some (a b : Option String) : Option String :=
  match a with
  | some e => some e
  | none => b

/-- The five `ALLOCATE_AND_CHECK` blocks as a recursion over the fields; the
second component collects the (pointer, length) pairs. -/
def allocate_all {σ : Type} (rt : csr_vm σ) :
    List (String × Option String) → Frame σ → Except (Frame σ) (Frame σ × List Nat)
  | [], f => Except.ok (f, [])
  | (name, field) :: rest, f =>
    match ALLOCATE_AND_CHECK rt name field f with
    | Except.error g => Except.error g
    | Except.ok (f1, p, l) =>
      match allocate_all rt rest f1 with
      | Except.error g => Except.error g
      | Except.ok (f2, args) => Except.ok (f2, p :: l :: args)

/-- What `csr_gen` does to `result` with the answer of the generate call,
before the label `bail`. -/
def decode (vm_result : wasm_vm_result) (result : csr_result) : csr_result :=
  if vm_result.err.isSome then
    { result with err := vm_result.err }
  else if vm_result.data % 2 ^ 64 = 0 then
    { result with err := some "could not generate csr: empty value" }
  else
    { result with
      csr_len := i32_of (vm_result.data % 2 ^ 64)
      csr_ptr := i32_of (vm_result.data % 2 ^ 64 / 2 ^ 32) }

/-- The generate call and the decoding of its result, as in `csr_gen`, from
the frame after the allocations and the ten pair arguments. -/
def generate_and_decode {σ : Type} (rt : csr_vm σ) (priv_key_buff_ptr priv_key_buff_len : Nat)
    (f5 : Frame σ) (pairs : List Nat) : Frame σ :=
  let vm_result := call_generate_csr rt f5.w (priv_key_buff_ptr :: priv_key_buff_len :: pairs)
  { f5 with w := vm_result.2, result := decode vm_result.1 f5.result }

/-- The frame in which `csr_gen` starts. -/
def entry_frame {σ : Type} (vm : σ) (uninit : csr_result) : Frame σ :=
  { w := { vm := vm, trace := [] }, result := uninit, i := 0, pointers := List.replicate 8 0 }

/-! ## Auxiliary definitions and concrete requests -/

/-- The message `ALLOCATE_AND_CHECK` stores for a field. -/
def alloc_error (name : String) : String :=
  "error during allocating ptr with length for " ++ name

/-- The addresses the cleanup loop does not skip, in the order of the frees. -/
def to_free (sgn : Bool) (addrs : List Nat) : List Nat :=
  (addrs.filter (fun p => !le_one sgn p)).reverse

/-- Only `subject = "CN=test"` is present. -/
def subject_only : csr_parameters := { no_parameters with subject := some "CN=test" }

/-- Only `dns` and `email` are present. -/
def dns_and_email : csr_parameters :=
  { no_parameters with dns := some "a.example", email := some "a@b.c" }

/-- All five fields are present. -/
def all_five : csr_parameters :=
  { subject := some "CN=test", dns := some "a.example", uri := some "spiffe://a/b",
    email := some "a@b.c", ip := some "10.0.0.1" }

/-- The packed value `(ptr << 32) | len`. -/
def packed (ptr len : Nat) : Nat := ptr <<< 32 ||| len

/-- Some content of the stack slot of `result` on entry, with a `NULL` error. -/
def clean_slot : csr_result := { csr_ptr := 0, csr_len := 0, err := none }

/-- Some content of the stack slot of `result` on entry, with an error
pointer that is not `NULL`. -/
def stale_slot : csr_result := { csr_ptr := 7, csr_len := 7, err := some "stale" }

/-- A lookup function under which `csr_malloc` does not resolve. -/
def lookup_without_malloc (_ : wasm_vm) (_ : String) (symbol : String) : wasm_vm_result :=
  if symbol = "csr_malloc" then wasm_vm_error "function not found" else ok 11

/-- A registry with a bound instance on core 2 and nothing elsewhere. -/
def registry_core_2 : Nat → Option csr_module :=
  fun c =>
    if c = 2 then
      some { vm := { cpu := 2 }, csr_malloc := some 5, csr_free := some 6, generate_csr := some 4 }
    else none

/-! ## The unrolled code and the recursion agree -/

theorem csr_gen_to_bail_eq {σ : Type} (rt : csr_vm σ) (vm : σ) (uninit : csr_result)
    (kp kl : Nat) (parameters : csr_parameters) :
    csr_gen_to_bail rt vm uninit kp kl parameters =
      match allocate_all rt (fields parameters) (entry_frame vm uninit) with
      | Except.error g => g
      | Except.ok (f5, pairs) => generate_and_decode rt kp kl f5 pairs := by
  unfold csr_gen_to_bail
  simp only [fields, allocate_all, entry_frame]
  cases h1 : ALLOCATE_AND_CHECK rt "subject" parameters.subject
    { w := { vm := vm, trace := [] }, result := uninit, i := 0, pointers := List.replicate 8 0 } with
  | error g => rfl
  | ok x1 =>
    obtain ⟨f1, p1, l1⟩ := x1
    simp only []
    cases h2 : ALLOCATE_AND_CHECK rt "dns" parameters.dns f1 with
    | error g => rfl
    | ok x2 =>
      obtain ⟨f2, p2, l2⟩ := x2
      simp only []
      cases h3 : ALLOCATE_AND_CHECK rt "uri" parameters.uri f2 with
      | error g => rfl
      | ok x3 =>
        obtain ⟨f3, p3, l3⟩ := x3
        simp only []
        cases h4 : ALLOCATE_AND_CHECK rt "email" parameters.email f3 with
        | error g => rfl
        | ok x4 =>
          obtain ⟨f4, p4, l4⟩ := x4
          simp only []
          cases h5 : ALLOCATE_AND_CHECK rt "ip" parameters.ip f4 with
          | error g => rfl
          | ok x5 =>
            obtain ⟨f5, p5, l5⟩ := x5
            simp only [generate_and_decode, decode]
            split_ifs <;> rfl

/-! ## One `ALLOCATE_AND_CHECK` block -/

theorem ALLOCATE_AND_CHECK_none {σ : Type} (rt : csr_vm σ) (name : String) (f : Frame σ) :
    ALLOCATE_AND_CHECK rt name none f = Except.ok (f, 0, 0) := rfl

theorem ALLOCATE_AND_CHECK_error {σ : Type} {rt : csr_vm σ} {name s : String} {f g : Frame σ}
    (h : ALLOCATE_AND_CHECK rt name (some s) f = Except.error g) :
    ∃ r : wasm_vm_result, r = (rt.call_malloc f.w.vm (i32_of (strlen s))).1 ∧
      (r.err ≠ none ∨ i32_of r.data = MINUS_ONE) ∧
      g.w.trace = f.w.trace ++ [Event.malloc (i32_of (strlen s)) r] ∧
      g.i = f.i ∧ g.pointers = f.pointers ∧
      g.result = { f.result with err := some (alloc_error name) } := by
  refine ⟨(rt.call_malloc f.w.vm (i32_of (strlen s))).1, rfl, ?_⟩
  simp only [ALLOCATE_AND_CHECK, alloc_and_copy_parameter, csr_malloc] at h
  by_cases he : (rt.call_malloc f.w.vm (i32_of (strlen s))).1.err.isSome = true
  · simp only [he, if_true] at h
    injection h with h
    subst h
    refine ⟨Or.inl ?_, rfl, rfl, rfl, rfl⟩
    intro hn
    rw [hn] at he
    simp at he
  · simp only [he] at h
    by_cases hm : i32_of (rt.call_malloc f.w.vm (i32_of (strlen s))).1.data = MINUS_ONE
    · simp only [hm, if_true] at h
      simp at h
      subst h
      exact ⟨Or.inr hm, rfl, rfl, rfl, rfl⟩
    · simp [hm] at h

theorem ALLOCATE_AND_CHECK_ok {σ : Type} {rt : csr_vm σ} {name s : String} {f g : Frame σ}
    {p l : Nat} (h : ALLOCATE_AND_CHECK rt name (some s) f = Except.ok (g, p, l)) :
    ∃ r : wasm_vm_result, r = (rt.call_malloc f.w.vm (i32_of (strlen s))).1 ∧
      r.err = none ∧ i32_of r.data ≠ MINUS_ONE ∧ p = i32_of r.data ∧ l = i32_of (strlen s) ∧
      g.w.trace = f.w.trace ++ [Event.malloc (i32_of (strlen s)) r] ∧
      g.i = f.i + 1 ∧ g.pointers = f.pointers.set f.i p ∧ g.result = f.result := by
  refine ⟨(rt.call_malloc f.w.vm (i32_of (strlen s))).1, rfl, ?_⟩
  simp only [ALLOCATE_AND_CHECK, alloc_and_copy_parameter, csr_malloc] at h
  by_cases he : (rt.call_malloc f.w.vm (i32_of (strlen s))).1.err.isSome = true
  · simp [he] at h
  · simp only [he] at h
    by_cases hm : i32_of (rt.call_malloc f.w.vm (i32_of (strlen s))).1.data = MINUS_ONE
    · simp [hm] at h
    · simp [hm] at h
      obtain ⟨hg, hp, hl⟩ := h
      subst hg
      subst hp
      subst hl
      refine ⟨?_, hm, rfl, rfl, rfl, rfl, rfl, rfl⟩
      cases hx : (rt.call_malloc f.w.vm (i32_of (strlen s))).1.err with
      | none => rfl
      | some e => rw [hx] at he; simp at he

/-! ## The array `pointers` -/

theorem take_succ_set (a : Nat) : ∀ (l : List Nat) (i : Nat), i < l.length →
    (l.set i a).take (i + 1) = l.take i ++ [a]
  | [], i, h => by simp at h
  | x :: l, 0, _ => by simp
  | x :: l, i + 1, h => by
    have h1 : i < l.length := by simpa using h
    simp [take_succ_set a l i h1]

theorem take_succ_getD : ∀ (l : List Nat) (k : Nat), k < l.length →
    l.take (k + 1) = l.take k ++ [l.getD k 0]
  | [], k, h => by simp at h
  | x :: l, 0, _ => by simp
  | x :: l, k + 1, h => by
    have h1 : k < l.length := by simpa using h
    have ih := take_succ_getD l k h1
    simp only [List.take_succ_cons, List.cons_append, ih]
    simp

/-! ## The allocation phase -/

theorem allocate_all_ok {σ : Type} (rt : csr_vm σ) :
    ∀ (fs : List (String × Option String)) (f g : Frame σ) (pairs : List Nat),
      allocate_all rt fs f = Except.ok (g, pairs) → f.i + fs.length ≤ f.pointers.length →
      ∃ A : List (Nat × wasm_vm_result),
        g.w.trace = f.w.trace ++ A.map malloc_event ∧
        (∀ x ∈ A, x.2.err = none ∧ returned_addr x ≠ MINUS_ONE) ∧
        A.map Prod.fst = present_lens fs ∧
        g.i = f.i + A.length ∧ g.pointers.length = f.pointers.length ∧
        g.pointers.take g.i = f.pointers.take f.i ++ A.map returned_addr ∧
        g.result = f.result ∧
        pairs = pair_args (fs.map Prod.snd) (A.map returned_addr) := by
  intro fs
  induction fs with
  | nil =>
    intro f g pairs h _
    simp only [allocate_all] at h
    injection h with h
    injection h with h1 h2
    subst h1
    subst h2
    exact ⟨[], by simp, by simp, by simp [present_lens], by simp, rfl, by simp, rfl,
      by simp [pair_args]⟩
  | cons hd rest ih =>
    intro f g pairs h hlen
    obtain ⟨name, fld⟩ := hd
    simp only [allocate_all] at h
    cases hA : ALLOCATE_AND_CHECK rt name fld f with
    | error e => rw [hA] at h; simp at h
    | ok x =>
      obtain ⟨f1, p, l⟩ := x
      rw [hA] at h
      simp only [] at h
      cases hR : allocate_all rt rest f1 with
      | error e => rw [hR] at h; simp at h
      | ok y =>
        obtain ⟨f2, args⟩ := y
        rw [hR] at h
        simp only [] at h
        injection h with h
        injection h with h1 h2
        subst h1
        subst h2
        simp only [List.length_cons] at hlen
        cases fld with
        | none =>
          rw [ALLOCATE_AND_CHECK_none] at hA
          injection hA with hA
          injection hA with hA1 hA2
          injection hA2 with hA2 hA3
          subst hA1
          subst hA2
          subst hA3
          obtain ⟨A, ht, hok, hs, hi, hpl, hp, hr, ha⟩ := ih f f2 args hR (by omega)
          exact ⟨A, ht, hok, by simpa [present_lens] using hs, hi, hpl, hp, hr,
            by simp [pair_args, ha]⟩
        | some s =>
          obtain ⟨r, _, hre, hrm, hp0, hl0, ht0, hi0, hpt0, hr0⟩ := ALLOCATE_AND_CHECK_ok hA
          have hlen1 : f1.pointers.length = f.pointers.length := by rw [hpt0]; simp
          obtain ⟨A, ht, hok, hs, hi, hpl, hp, hr, ha⟩ :=
            ih f1 f2 args hR (by rw [hlen1, hi0]; omega)
          refine ⟨(l, r) :: A, ?_, ?_, ?_, ?_, ?_, ?_, ?_, ?_⟩
          · rw [ht, ht0, hl0]; simp [malloc_event]
          · intro x hx
            rcases List.mem_cons.mp hx with hx | hx
            · subst hx
              exact ⟨hre, by simpa [returned_addr] using hrm⟩
            · exact hok x hx
          · simp only [List.map_cons, present_lens, List.filterMap_cons, Option.map_some']
            rw [hl0]
            congr 1
          · rw [hi, hi0]; simp; omega
          · rw [hpl, hlen1]
          · rw [hp, hi0, hpt0, take_succ_set p f.pointers f.i (by omega), hp0]
            simp [returned_addr]
          · rw [hr, hr0]
          · simp [pair_args, returned_addr, ha, hp0, hl0]

theorem allocate_all_error {σ : Type} (rt : csr_vm σ) :
    ∀ (fs : List (String × Option String)) (f g : Frame σ),
      allocate_all rt fs f = Except.error g → f.i + fs.length ≤ f.pointers.length →
      ∃ (A : List (Nat × wasm_vm_result)) (r : wasm_vm_result)
        (pre : List (String × Option String)) (name s : String)
        (post : List (String × Option String)),
        fs = pre ++ (name, some s) :: post ∧
        (r.err ≠ none ∨ i32_of r.data = MINUS_ONE) ∧
        g.w.trace = f.w.trace ++ A.map malloc_event ++ [Event.malloc (i32_of (strlen s)) r] ∧
        (∀ x ∈ A, x.2.err = none ∧ returned_addr x ≠ MINUS_ONE) ∧
        A.map Prod.fst = present_lens pre ∧
        g.i = f.i + A.length ∧ g.pointers.length = f.pointers.length ∧
        g.pointers.take g.i = f.pointers.take f.i ++ A.map returned_addr ∧
        g.result = { f.result with err := some (alloc_error name) } := by
  intro fs
  induction fs with
  | nil =>
    intro f g h _
    simp [allocate_all] at h
  | cons hd rest ih =>
    intro f g h hlen
    obtain ⟨name, fld⟩ := hd
    simp only [allocate_all] at h
    simp only [List.length_cons] at hlen
    cases hA : ALLOCATE_AND_CHECK rt name fld f with
    | error e =>
      rw [hA] at h
      simp only [] at h
      injection h with h
      subst h
      cases fld with
      | none => rw [ALLOCATE_AND_CHECK_none] at hA; simp at hA
      | some s =>
        obtain ⟨r, _, hbad, ht, hi, hp, hr⟩ := ALLOCATE_AND_CHECK_error hA
        exact ⟨[], r, [], name, s, rest, by simp, hbad, by simp [ht], by simp,
          by simp [present_lens], by simp [hi], by rw [hp], by simp [hi, hp], hr⟩
    | ok x =>
      obtain ⟨f1, p, l⟩ := x
      rw [hA] at h
      simp only [] at h
      cases hR : allocate_all rt rest f1 with
      | ok y => rw [hR] at h; simp at h
      | error e =>
        rw [hR] at h
        simp only [] at h
        injection h with h
        subst h
        cases fld with
        | none =>
          rw [ALLOCATE_AND_CHECK_none] at hA
          injection hA with hA
          injection hA with hA1 hA2
          subst hA1
          obtain ⟨A, r, pre, nm, s, post, hfs, hbad, ht, hok, hs, hi, hpl, hp, hr⟩ :=
            ih f e hR (by omega)
          exact ⟨A, r, (name, none) :: pre, nm, s, post, by simp [hfs], hbad, ht, hok,
            by simpa [present_lens] using hs, hi, hpl, hp, hr⟩
        | some s0 =>
          obtain ⟨r0, _, hre, hrm, hp0, hl0, ht0, hi0, hpt0, hr0⟩ := ALLOCATE_AND_CHECK_ok hA
          have hlen1 : f1.pointers.length = f.pointers.length := by rw [hpt0]; simp
          obtain ⟨A, r, pre, nm, s, post, hfs, hbad, ht, hok, hs, hi, hpl, hp, hr⟩ :=
            ih f1 e hR (by rw [hlen1, hi0]; omega)
          refine ⟨(l, r0) :: A, r, (name, some s0) :: pre, nm, s, post, by simp [hfs], hbad,
            ?_, ?_, ?_, ?_, ?_, ?_, ?_⟩
          · rw [ht, ht0, hl0]; simp [malloc_event]
          · intro x hx
            rcases List.mem_cons.mp hx with hx | hx
            · subst hx
              exact ⟨hre, by simpa [returned_addr] using hrm⟩
            · exact hok x hx
          · simp only [List.map_cons, present_lens, List.filterMap_cons, Option.map_some']
            rw [hl0]
            congr 1
          · rw [hi, hi0]; simp; omega
          · rw [hpl, hlen1]
          · rw [hp, hi0, hpt0, take_succ_set p f.pointers f.i (by omega), hp0]
            simp [returned_addr]
          · rw [hr, hr0]

/-! ## Reading traces -/

theorem free_errs_append (s t : List Event) : free_errs (s ++ t) = free_errs s ++ free_errs t := by
  simp [free_errs]

theorem free_errs_malloc (A : List (Nat × wasm_vm_result)) :
    free_errs (A.map malloc_event) = [] := by
  simp [free_errs, malloc_event]

theorem freed_ptrs_append (s t : List Event) :
    freed_ptrs (s ++ t) = freed_ptrs s ++ freed_ptrs t := by
  simp [freed_ptrs]

theorem freed_ptrs_malloc (A : List (Nat × wasm_vm_result)) :
    freed_ptrs (A.map malloc_event) = [] := by
  simp [freed_ptrs, malloc_event]

theorem freed_ptrs_free (F : List (Nat × wasm_vm_result)) :
    freed_ptrs (F.map free_event) = F.map Prod.fst := by
  induction F with
  | nil => rfl
  | cons x F ih => simpa [freed_ptrs, free_event] using ih

theorem recorded_addrs_append (s t : List Event) :
    recorded_addrs (s ++ t) = recorded_addrs s ++ recorded_addrs t := by
  simp [recorded_addrs]

theorem recorded_addrs_free (F : List (Nat × wasm_vm_result)) :
    recorded_addrs (F.map free_event) = [] := by
  simp [recorded_addrs, free_event]

theorem recorded_addrs_malloc (A : List (Nat × wasm_vm_result))
    (h : ∀ x ∈ A, x.2.err = none ∧ returned_addr x ≠ MINUS_ONE) :
    recorded_addrs (A.map malloc_event) = A.map returned_addr := by
  induction A with
  | nil => rfl
  | cons x A ih =>
    have hx := h x (List.mem_cons_self x A)
    have ih1 := ih (fun y hy => h y (List.mem_cons_of_mem x hy))
    simp only [recorded_addrs] at ih1
    simp only [returned_addr] at hx
    simp [recorded_addrs, malloc_event, returned_addr, hx.1, hx.2, ih1]

/-! ## The cleanup loop -/

theorem free_loop_skip {σ : Type} (sgn : Bool) (rt : csr_vm σ) (k : Nat) (f : Frame σ)
    (hs : le_one sgn (f.pointers.getD k 0) = true) :
    free_loop sgn rt (k + 1) f = free_loop sgn rt k f := by
  rw [free_loop, if_pos hs]

theorem free_loop_failed {σ : Type} (sgn : Bool) (rt : csr_vm σ) (k : Nat) (f : Frame σ)
    (e : String) (hs : le_one sgn (f.pointers.getD k 0) = false)
    (he : (rt.call_free f.w.vm (f.pointers.getD k 0)).1.err = some e) :
    free_loop sgn rt (k + 1) f =
      free_loop sgn rt k
        { f with
          w := { vm := (rt.call_free f.w.vm (f.pointers.getD k 0)).2
                 trace := f.w.trace ++
                   [Event.free (f.pointers.getD k 0)
                     (rt.call_free f.w.vm (f.pointers.getD k 0)).1] }
          result := { f.result with err := some e } } := by
  rw [free_loop, if_neg (by rw [hs]; simp)]
  simp only [csr_free, he, Option.isSome_some, if_true]

theorem free_loop_freed {σ : Type} (sgn : Bool) (rt : csr_vm σ) (k : Nat) (f : Frame σ)
    (hs : le_one sgn (f.pointers.getD k 0) = false)
    (he : (rt.call_free f.w.vm (f.pointers.getD k 0)).1.err = none) :
    free_loop sgn rt (k + 1) f =
      free_loop sgn rt k
        { f with
          w := { vm := (rt.call_free f.w.vm (f.pointers.getD k 0)).2
                 trace := f.w.trace ++
                   [Event.free (f.pointers.getD k 0)
                     (rt.call_free f.w.vm (f.pointers.getD k 0)).1] } } := by
  rw [free_loop, if_neg (by rw [hs]; simp)]
  simp only [csr_free, he, Option.isSome_none, Bool.false_eq_true, if_false]

theorem filter_take_succ (sgn : Bool) (l : List Nat) (k : Nat) (hk : k < l.length) :
    ((l.take (k + 1)).filter (fun p => !le_one sgn p)).reverse =
      (if le_one sgn (l.getD k 0) then [] else [l.getD k 0]) ++
        ((l.take k).filter (fun p => !le_one sgn p)).reverse := by
  rw [take_succ_getD l k hk, List.filter_append, List.reverse_append]
  generalize l.getD k 0 = p
  cases h : le_one sgn p <;> simp [List.filter_cons, h]

theorem free_errs_cons_free (p : Nat) (r : wasm_vm_result) (t : List Event) :
    free_errs (Event.free p r :: t) = r.err.toList ++ free_errs t := by
  cases h : r.err <;> simp [free_errs, h]

theorem free_errs_map_cons (p : Nat) (r : wasm_vm_result) (F : List (Nat × wasm_vm_result)) :
    free_errs (((p, r) :: F).map free_event) = r.err.toList ++ free_errs (F.map free_event) := by
  rw [List.map_cons]
  exact free_errs_cons_free p r _

theorem free_loop_spec {σ : Type} (sgn : Bool) (rt : csr_vm σ) :
    ∀ (k : Nat) (f : Frame σ), k ≤ f.pointers.length →
      ∃ F : List (Nat × wasm_vm_result),
        (free_loop sgn rt k f).w.trace = f.w.trace ++ F.map free_event ∧
        F.map Prod.fst = ((f.pointers.take k).filter (fun p => !le_one sgn p)).reverse ∧
        (free_loop sgn rt k f).result =
          { f.result with err := first_some (last_free_err (F.map free_event)) f.result.err } := by
  intro k
  induction k with
  | zero =>
    intro f _
    exact ⟨[], by simp [free_loop], by simp, by simp [free_loop, last_free_err, free_errs, first_some]⟩
  | succ k ih =>
    intro f hk
    have hft := filter_take_succ sgn f.pointers k (by omega)
    cases hs : le_one sgn (f.pointers.getD k 0) with
    | true =>
      obtain ⟨F, ht, hp, hr⟩ := ih f (by omega)
      rw [free_loop_skip sgn rt k f hs, hft, hs]
      exact ⟨F, ht, by simpa using hp, hr⟩
    | false =>
      cases he : (rt.call_free f.w.vm (f.pointers.getD k 0)).1.err with
      | some e =>
        rw [free_loop_failed sgn rt k f e hs he, hft, hs]
        obtain ⟨F, ht, hp, hr⟩ := ih
          { f with
            w := { vm := (rt.call_free f.w.vm (f.pointers.getD k 0)).2
                   trace := f.w.trace ++
                     [Event.free (f.pointers.getD k 0)
                       (rt.call_free f.w.vm (f.pointers.getD k 0)).1] }
            result := { f.result with err := some e } }
          (by show k ≤ f.pointers.length; omega)
        refine ⟨(f.pointers.getD k 0, (rt.call_free f.w.vm (f.pointers.getD k 0)).1) :: F,
          ?_, ?_, ?_⟩
        · rw [ht]; simp [free_event]
        · rw [List.map_cons, hp]; simp
        · rw [hr]
          simp only [last_free_err]
          rw [free_errs_map_cons, he]
          show _ = ({ f.result with
            err := first_some (e :: free_errs (List.map free_event F)).getLast? f.result.err } :
              csr_result)
          rw [List.getLast?_cons]
          cases (free_errs (List.map free_event F)).getLast? <;> simp [first_some]
      | none =>
        rw [free_loop_freed sgn rt k f hs he, hft, hs]
        obtain ⟨F, ht, hp, hr⟩ := ih
          { f with
            w := { vm := (rt.call_free f.w.vm (f.pointers.getD k 0)).2
                   trace := f.w.trace ++
                     [Event.free (f.pointers.getD k 0)
                       (rt.call_free f.w.vm (f.pointers.getD k 0)).1] } }
          (by show k ≤ f.pointers.length; omega)
        refine ⟨(f.pointers.getD k 0, (rt.call_free f.w.vm (f.pointers.getD k 0)).1) :: F,
          ?_, ?_, ?_⟩
        · rw [ht]; simp [free_event]
        · rw [List.map_cons, hp]; simp
        · rw [hr]
          simp only [last_free_err]
          rw [free_errs_map_cons, he]
          rfl

/-! ## The shape of a run of `csr_gen` -/

theorem present_lens_length_le (fs : List (String × Option String)) :
    (present_lens fs).length ≤ fs.length :=
  List.length_filterMap_le _ _

theorem csr_gen_shape {σ : Type} (sgn : Bool) (rt : csr_vm σ) (vm : σ) (uninit : csr_result)
    (kp kl : Nat) (parameters : csr_parameters) :
    (∃ (A : List (Nat × wasm_vm_result)) (r : wasm_vm_result)
        (pre : List (String × Option String)) (name s : String)
        (post : List (String × Option String)) (F : List (Nat × wasm_vm_result)),
        fields parameters = pre ++ (name, some s) :: post ∧
        (r.err ≠ none ∨ i32_of r.data = MINUS_ONE) ∧
        (csr_gen sgn rt vm uninit kp kl parameters).w.trace =
          A.map malloc_event ++ [Event.malloc (i32_of (strlen s)) r] ++ F.map free_event ∧
        (∀ x ∈ A, x.2.err = none ∧ returned_addr x ≠ MINUS_ONE) ∧
        A.map Prod.fst = present_lens pre ∧
        F.map Prod.fst = to_free sgn (A.map returned_addr) ∧
        (csr_gen sgn rt vm uninit kp kl parameters).result =
          { uninit with
            err := first_some (last_free_err (F.map free_event)) (some (alloc_error name)) } ∧
        (csr_gen_to_bail rt vm uninit kp kl parameters).pointers.take
          (csr_gen_to_bail rt vm uninit kp kl parameters).i = A.map returned_addr) ∨
    (∃ (A : List (Nat × wasm_vm_result)) (res : wasm_vm_result)
        (F : List (Nat × wasm_vm_result)),
        (csr_gen sgn rt vm uninit kp kl parameters).w.trace =
          A.map malloc_event ++
            [Event.generate (kp :: kl ::
              pair_args ((fields parameters).map Prod.snd) (A.map returned_addr)) res] ++
            F.map free_event ∧
        (∀ x ∈ A, x.2.err = none ∧ returned_addr x ≠ MINUS_ONE) ∧
        A.map Prod.fst = present_lens (fields parameters) ∧
        F.map Prod.fst = to_free sgn (A.map returned_addr) ∧
        (csr_gen sgn rt vm uninit kp kl parameters).result =
          { decode res uninit with
            err := first_some (last_free_err (F.map free_event)) (decode res uninit).err } ∧
        (csr_gen_to_bail rt vm uninit kp kl parameters).pointers.take
          (csr_gen_to_bail rt vm uninit kp kl parameters).i = A.map returned_addr) := by
  have h8 : (entry_frame vm uninit).i + (fields parameters).length ≤
      (entry_frame vm uninit).pointers.length := by
    simp [entry_frame, fields]
  unfold csr_gen
  rw [csr_gen_to_bail_eq]
  cases h : allocate_all rt (fields parameters) (entry_frame vm uninit) with
  | error g =>
    left
    obtain ⟨A, r, pre, name, s, post, hfs, hbad, ht, hok, hs, hi, hpl, hp, hr⟩ :=
      allocate_all_error rt _ _ g h h8
    have hAlen : A.length ≤ 5 := by
      have h1 : A.length = (present_lens pre).length := by rw [← hs]; simp
      have h2 := present_lens_length_le pre
      have h3 : (fields parameters).length = 5 := rfl
      rw [hfs] at h3
      simp at h3
      omega
    have hgi : g.i = A.length := by rw [hi]; simp [entry_frame]
    have hgl : g.pointers.length = 8 := by rw [hpl]; simp [entry_frame]
    obtain ⟨F, hFt, hFp, hFr⟩ := free_loop_spec sgn rt g.i g (by omega)
    refine ⟨A, r, pre, name, s, post, F, hfs, hbad, ?_, hok, hs, ?_, ?_, ?_⟩
    · show (free_loop sgn rt g.i g).w.trace = _
      rw [hFt, ht]; simp [entry_frame]
    · rw [hFp, hp]; simp [entry_frame, to_free]
    · show (free_loop sgn rt g.i g).result = _
      rw [hFr, hr]; rfl
    · show g.pointers.take g.i = _
      rw [hp]; simp [entry_frame]
  | ok x =>
    right
    obtain ⟨f5, pairs⟩ := x
    obtain ⟨A, ht, hok, hs, hi, hpl, hp, hr, ha⟩ := allocate_all_ok rt _ _ f5 pairs h h8
    have hAlen : A.length ≤ 5 := by
      have h1 : A.length = (present_lens (fields parameters)).length := by rw [← hs]; simp
      have h2 := present_lens_length_le (fields parameters)
      have h3 : (fields parameters).length = 5 := rfl
      omega
    have hgi : f5.i = A.length := by rw [hi]; simp [entry_frame]
    have hgl : f5.pointers.length = 8 := by rw [hpl]; simp [entry_frame]
    obtain ⟨F, hFt, hFp, hFr⟩ := free_loop_spec sgn rt f5.i
      (generate_and_decode rt kp kl f5 pairs) (by show f5.i ≤ f5.pointers.length; omega)
    refine ⟨A, (rt.call_generate f5.w.vm (kp :: kl :: pairs)).1, F, ?_, hok, hs, ?_, ?_, ?_⟩
    · show (free_loop sgn rt f5.i (generate_and_decode rt kp kl f5 pairs)).w.trace = _
      rw [hFt]
      simp [generate_and_decode, call_generate_csr, ht, ha, entry_frame]
    · rw [hFp]
      show (List.filter _ (List.take f5.i f5.pointers)).reverse = _
      rw [hp]; simp [entry_frame, to_free]
    · show (free_loop sgn rt f5.i (generate_and_decode rt kp kl f5 pairs)).result = _
      rw [hFr]
      simp only [generate_and_decode, call_generate_csr, hr, entry_frame]
    · show f5.pointers.take f5.i = _
      rw [hp]; simp [entry_frame]

/-! ## Membership in a trace of known shape -/

theorem generate_not_mem_bail (A F : List (Nat × wasm_vm_result)) (n : Nat) (r : wasm_vm_result)
    (args : List Nat) (res : wasm_vm_result) :
    Event.generate args res ∉ A.map malloc_event ++ [Event.malloc n r] ++ F.map free_event := by
  simp [malloc_event, free_event]

theorem generate_mem_gen {A F : List (Nat × wasm_vm_result)} {a0 : List Nat} {r0 : wasm_vm_result}
    {args : List Nat} {res : wasm_vm_result}
    (h : Event.generate args res ∈
      A.map malloc_event ++ [Event.generate a0 r0] ++ F.map free_event) :
    args = a0 ∧ res = r0 := by
  simpa [malloc_event, free_event] using h

theorem malloc_mem_iff (A F : List (Nat × wasm_vm_result)) (x : Event) (n : Nat)
    (r : wasm_vm_result) :
    Event.malloc n r ∈ A.map malloc_event ++ [x] ++ F.map free_event ↔
      (n, r) ∈ A ∨ Event.malloc n r = x := by
  simp [malloc_event, free_event]

theorem free_mem_iff (A F : List (Nat × wasm_vm_result)) (x : Event) (p : Nat)
    (r : wasm_vm_result) :
    Event.free p r ∈ A.map malloc_event ++ [x] ++ F.map free_event ↔
      (p, r) ∈ F ∨ Event.free p r = x := by
  simp [malloc_event, free_event]
  tauto

theorem to_free_eq_reverse (sgn : Bool) (addrs : List Nat)
    (h : ∀ a ∈ addrs, le_one sgn a = false) : to_free sgn addrs = addrs.reverse := by
  unfold to_free
  rw [List.filter_eq_self.mpr]
  intro a ha
  simp [h a ha]

theorem last_free_err_shape (A F : List (Nat × wasm_vm_result)) (x : Event)
    (hx : free_errs [x] = []) :
    last_free_err (A.map malloc_event ++ [x] ++ F.map free_event) =
      last_free_err (F.map free_event) := by
  simp only [last_free_err, free_errs_append, free_errs_malloc, hx, List.nil_append]

theorem pair_args_length : ∀ (fs : List (Option String)) (addrs : List Nat),
    (pair_args fs addrs).length = 2 * fs.length
  | [], _ => rfl
  | none :: fs, addrs => by simp [pair_args, pair_args_length fs addrs]; omega
  | some s :: fs, a :: addrs => by simp [pair_args, pair_args_length fs addrs]; omega
  | some s :: fs, [] => by simp [pair_args, pair_args_length fs []]; omega

/-! ## C1: allocations and frees of a run in which every call succeeds -/

/-- C1, as stated, fails: with only `subject` present and a guest whose
allocator answers successfully with the address 0 (and likewise with 1),
every guest call of the run succeeds, one allocation is made, and no free is
issued, whether `i32` is signed or not.  And with `dns` and `email` present
and an allocator that answers successfully with `0xFFFFFFFF`, the pattern of
`-1`, the run stops after the first allocation: none is made for `email`. -/
theorem csr_gen_null_allocation_never_freed :
    (csr_gen true scripted [ok 0, ok (packed 0x1000 42)] clean_slot 64 32 subject_only).w.trace =
      [Event.malloc 7 (ok 0),
       Event.generate [64, 32, 0, 7, 0, 0, 0, 0, 0, 0, 0, 0] (ok (packed 0x1000 42))] ∧
    (csr_gen false scripted [ok 0, ok (packed 0x1000 42)] clean_slot 64 32 subject_only).w.trace =
      [Event.malloc 7 (ok 0),
       Event.generate [64, 32, 0, 7, 0, 0, 0, 0, 0, 0, 0, 0] (ok (packed 0x1000 42))] ∧
    (csr_gen true scripted [ok 1, ok (packed 0x1000 42)] clean_slot 64 32 subject_only).w.trace =
      [Event.malloc 7 (ok 1),
       Event.generate [64, 32, 1, 7, 0, 0, 0, 0, 0, 0, 0, 0] (ok (packed 0x1000 42))] ∧
    (csr_gen false scripted [ok 0xFFFFFFFF, ok 0x400, ok (packed 0x1000 42)]
      clean_slot 64 32 dns_and_email).w.trace = [Event.malloc 9 (ok 0xFFFFFFFF)] := by
  decide

/-- C1, amended: when every allocator call of a run of `csr_gen` succeeds with
an address that is neither the failure marker `-1` nor skipped by the test
`pointers[i] <= 1` of the cleanup loop, the run issues exactly one allocator
call per present field, in the order subject, dns, uri, email, ip, and none
for an absent field, then the generate call, then exactly one free per
allocation, the freed addresses being the allocated ones in reverse order. -/
theorem csr_gen_one_free_per_allocation {σ : Type} (sgn : Bool) (rt : csr_vm σ) (vm : σ)
    (uninit : csr_result) (kp kl : Nat) (parameters : csr_parameters)
    (hmalloc : ∀ n r, Event.malloc n r ∈ (csr_gen sgn rt vm uninit kp kl parameters).w.trace →
      r.err = none ∧ i32_of r.data ≠ MINUS_ONE ∧ le_one sgn (i32_of r.data) = false) :
    ∃ (A : List (Nat × wasm_vm_result)) (args : List Nat) (res : wasm_vm_result)
      (F : List (Nat × wasm_vm_result)),
      (csr_gen sgn rt vm uninit kp kl parameters).w.trace =
        A.map malloc_event ++ [Event.generate args res] ++ F.map free_event ∧
      A.map Prod.fst = present_lens (fields parameters) ∧
      F.map Prod.fst = (A.map returned_addr).reverse := by
  rcases csr_gen_shape sgn rt vm uninit kp kl parameters with
    ⟨A, r, pre, name, s, post, F, _, hbad, ht, _, _, _, _⟩ | ⟨A, res, F, ht, _, hs, hF, _⟩
  · exfalso
    have hm := hmalloc (i32_of (strlen s)) r (by rw [ht, malloc_mem_iff]; exact Or.inr rfl)
    rcases hbad with hbad | hbad
    · exact hbad hm.1
    · exact hm.2.1 hbad
  · refine ⟨A, _, res, F, ht, hs, ?_⟩
    rw [hF]
    apply to_free_eq_reverse
    intro a ha
    obtain ⟨x, hx, rfl⟩ := List.mem_map.mp ha
    exact (hmalloc x.1 x.2 (by rw [ht, malloc_mem_iff]; exact Or.inl hx)).2.2

/-- A run of C1 (amended): all five fields present, every call succeeds; five
allocations, the generate call, five frees in reverse order. -/
theorem csr_gen_one_free_per_allocation_witness :
    (∀ n r, Event.malloc n r ∈ (csr_gen true scripted
        [ok 0x100, ok 0x200, ok 0x300, ok 0x400, ok 0x500, ok (packed 0x1000 42)]
        clean_slot 64 32 all_five).w.trace →
      r.err = none ∧ i32_of r.data ≠ MINUS_ONE ∧ le_one true (i32_of r.data) = false) ∧
    freed_ptrs (csr_gen true scripted
        [ok 0x100, ok 0x200, ok 0x300, ok 0x400, ok 0x500, ok (packed 0x1000 42)]
        clean_slot 64 32 all_five).w.trace = [0x500, 0x400, 0x300, 0x200, 0x100] ∧
    ∃ (A : List (Nat × wasm_vm_result)) (args : List Nat) (res : wasm_vm_result)
      (F : List (Nat × wasm_vm_result)),
      (csr_gen true scripted
        [ok 0x100, ok 0x200, ok 0x300, ok 0x400, ok 0x500, ok (packed 0x1000 42)]
        clean_slot 64 32 all_five).w.trace =
        A.map malloc_event ++ [Event.generate args res] ++ F.map free_event ∧
      A.map Prod.fst = present_lens (fields all_five) ∧
      F.map Prod.fst = (A.map returned_addr).reverse := by
  have h : ∀ n r, Event.malloc n r ∈ (csr_gen true scripted
        [ok 0x100, ok 0x200, ok 0x300, ok 0x400, ok 0x500, ok (packed 0x1000 42)]
        clean_slot 64 32 all_five).w.trace →
      r.err = none ∧ i32_of r.data ≠ MINUS_ONE ∧ le_one true (i32_of r.data) = false := by
    intro n r hm
    have ht : (csr_gen true scripted
        [ok 0x100, ok 0x200, ok 0x300, ok 0x400, ok 0x500, ok (packed 0x1000 42)]
        clean_slot 64 32 all_five).w.trace =
        [Event.malloc 7 (ok 0x100), Event.malloc 9 (ok 0x200), Event.malloc 12 (ok 0x300),
         Event.malloc 5 (ok 0x400), Event.malloc 8 (ok 0x500),
         Event.generate [64, 32, 0x100, 7, 0x200, 9, 0x300, 12, 0x400, 5, 0x500, 8]
           (ok (packed 0x1000 42)),
         Event.free 0x500 (ok 0), Event.free 0x400 (ok 0), Event.free 0x300 (ok 0),
         Event.free 0x200 (ok 0), Event.free 0x100 (ok 0)] := by decide
    rw [ht] at hm
    simp only [List.mem_cons, Event.malloc.injEq, List.mem_singleton, reduceCtorEq, false_or,
      or_false, List.not_mem_nil] at hm
    rcases hm with ⟨_, rfl⟩ | ⟨_, rfl⟩ | ⟨_, rfl⟩ | ⟨_, rfl⟩ | ⟨_, rfl⟩ <;> decide
  exact ⟨h, by decide, csr_gen_one_free_per_allocation true scripted _ clean_slot 64 32 all_five h⟩

/-! ## C2: the generate call fails -/

/-- C2, as stated, fails: with only `subject` present (N = 1), an allocator
that answers successfully with the address 1 and a generate call that reports
an error, no free is issued. -/
theorem csr_gen_generate_error_sentinel_not_freed :
    (csr_gen true scripted [ok 1, failed "trap"] clean_slot 64 32 subject_only).w.trace =
      [Event.malloc 7 (ok 1),
       Event.generate [64, 32, 1, 7, 0, 0, 0, 0, 0, 0, 0, 0] (failed "trap")] ∧
    (csr_gen false scripted [ok 1, failed "trap"] clean_slot 64 32 subject_only).w.trace =
      [Event.malloc 7 (ok 1),
       Event.generate [64, 32, 1, 7, 0, 0, 0, 0, 0, 0, 0, 0] (failed "trap")] := by
  decide

/-- C2, amended: when the generate call of a run reports an error, the run
made one successful allocation per present field (N of them) before it, and
after it frees, in reverse order of allocation, exactly the allocated
addresses that the test `pointers[i] <= 1` does not skip: all N of them when
none is skipped.  The returned result carries an error. -/
theorem csr_gen_generate_error_frees {σ : Type} (sgn : Bool) (rt : csr_vm σ) (vm : σ)
    (uninit : csr_result) (kp kl : Nat) (parameters : csr_parameters)
    (args : List Nat) (res : wasm_vm_result)
    (hgen : Event.generate args res ∈ (csr_gen sgn rt vm uninit kp kl parameters).w.trace)
    (herr : res.err ≠ none) :
    ∃ (A F : List (Nat × wasm_vm_result)),
      (csr_gen sgn rt vm uninit kp kl parameters).w.trace =
        A.map malloc_event ++ [Event.generate args res] ++ F.map free_event ∧
      A.map Prod.fst = present_lens (fields parameters) ∧
      (∀ x ∈ A, x.2.err = none) ∧
      F.map Prod.fst = ((A.map returned_addr).filter (fun a => !le_one sgn a)).reverse ∧
      ((∀ x ∈ A, le_one sgn (returned_addr x) = false) →
        F.map Prod.fst = (A.map returned_addr).reverse ∧
        F.length = (present_lens (fields parameters)).length) ∧
      (csr_gen sgn rt vm uninit kp kl parameters).result.err ≠ none := by
  rcases csr_gen_shape sgn rt vm uninit kp kl parameters with
    ⟨A, r, pre, name, s, post, F, _, _, ht, _, _, _, _⟩ | ⟨A, res0, F, ht, hok, hs, hF, hr, _⟩
  · rw [ht] at hgen
    exact absurd hgen (generate_not_mem_bail A F _ r args res)
  · rw [ht] at hgen
    obtain ⟨ha, hres⟩ := generate_mem_gen hgen
    subst ha
    subst hres
    refine ⟨A, F, ht, hs, fun x hx => (hok x hx).1, hF, ?_, ?_⟩
    · intro hns
      have h1 : F.map Prod.fst = (A.map returned_addr).reverse := by
        rw [hF]
        apply to_free_eq_reverse
        intro a ha
        obtain ⟨x, hx, rfl⟩ := List.mem_map.mp ha
        exact hns x hx
      refine ⟨h1, ?_⟩
      have h2 := congrArg List.length h1
      have h3 := congrArg List.length hs
      simp only [List.length_map, List.length_reverse] at h2 h3
      omega
    · rw [hr]
      obtain ⟨e, he⟩ := Option.ne_none_iff_exists'.mp herr
      have hd : (decode res uninit).err = some e := by simp [decode, he]
      show first_some _ (decode res uninit).err ≠ none
      rw [hd]
      cases last_free_err (List.map free_event F) <;> simp [first_some]

/-- A run of C2 (amended): `dns` and `email` present (N = 2), the generate
call traps; two frees, in reverse order of allocation, and an error. -/
theorem csr_gen_generate_error_frees_witness :
    Event.generate [64, 32, 0, 0, 0x200, 9, 0, 0, 0x400, 5, 0, 0] (failed "trap") ∈
      (csr_gen true scripted [ok 0x200, ok 0x400, failed "trap"]
        clean_slot 64 32 dns_and_email).w.trace ∧
    freed_ptrs (csr_gen true scripted [ok 0x200, ok 0x400, failed "trap"]
        clean_slot 64 32 dns_and_email).w.trace = [0x400, 0x200] ∧
    ∃ (A F : List (Nat × wasm_vm_result)),
      (csr_gen true scripted [ok 0x200, ok 0x400, failed "trap"]
        clean_slot 64 32 dns_and_email).w.trace =
        A.map malloc_event ++
          [Event.generate [64, 32, 0, 0, 0x200, 9, 0, 0, 0x400, 5, 0, 0] (failed "trap")] ++
          F.map free_event ∧
      A.map Prod.fst = present_lens (fields dns_and_email) ∧
      (∀ x ∈ A, x.2.err = none) ∧
      F.map Prod.fst = ((A.map returned_addr).filter (fun a => !le_one true a)).reverse ∧
      ((∀ x ∈ A, le_one true (returned_addr x) = false) →
        F.map Prod.fst = (A.map returned_addr).reverse ∧
        F.length = (present_lens (fields dns_and_email)).length) ∧
      (csr_gen true scripted [ok 0x200, ok 0x400, failed "trap"]
        clean_slot 64 32 dns_and_email).result.err ≠ none :=
  ⟨by decide, by decide,
    csr_gen_generate_error_frees true scripted _ clean_slot 64 32 dns_and_email _ _
      (by decide) (by decide)⟩

/-! ## C3: an allocation fails -/

theorem last_free_err_none (F : List (Nat × wasm_vm_result)) (h : ∀ x ∈ F, x.2.err = none) :
    last_free_err (F.map free_event) = none := by
  induction F with
  | nil => rfl
  | cons x F ih =>
    obtain ⟨p, r⟩ := x
    have hx : r.err = none := h (p, r) (List.mem_cons_self _ _)
    have ih1 := ih (fun y hy => h y (List.mem_cons_of_mem _ hy))
    simp only [last_free_err] at ih1 ⊢
    rw [free_errs_map_cons, hx]
    exact ih1

/-- C3, as stated, fails, in two ways.  With `dns` and `email` present and
the allocation for `email` failing: when the allocator had answered the
address 1 for `dns`, no free is issued; and when the free of the `dns`
address fails, the returned error is that of the free and does not name
`email`. -/
theorem csr_gen_alloc_failure_counterexample :
    (csr_gen true scripted [ok 1, failed "oom"] clean_slot 64 32 dns_and_email).w.trace =
      [Event.malloc 9 (ok 1), Event.malloc 5 (failed "oom")] ∧
    (csr_gen false scripted [ok 1, failed "oom"] clean_slot 64 32 dns_and_email).w.trace =
      [Event.malloc 9 (ok 1), Event.malloc 5 (failed "oom")] ∧
    (csr_gen true scripted [ok 0x200, failed "oom", failed "bad free"]
      clean_slot 64 32 dns_and_email).w.trace =
      [Event.malloc 9 (ok 0x200), Event.malloc 5 (failed "oom"),
       Event.free 0x200 (failed "bad free")] ∧
    (csr_gen true scripted [ok 0x200, failed "oom", failed "bad free"]
      clean_slot 64 32 dns_and_email).result.err = some "bad free" := by
  decide

/-- C3, amended: when the allocator reports an error for a present field F,
`csr_gen` stops there.  The run is: one successful allocation per present
field before F, the failed allocation for F, then a free, in reverse order of
allocation, of exactly the earlier addresses that the test `pointers[i] <= 1`
does not skip; no allocation for a field after F, no generate call and no
free for F.  The returned error is the message that names F, unless a free of
the cleanup fails, and then it is the error of the last failed free. -/
theorem csr_gen_alloc_failure {σ : Type} (sgn : Bool) (rt : csr_vm σ) (vm : σ)
    (uninit : csr_result) (kp kl : Nat) (parameters : csr_parameters)
    (n : Nat) (r : wasm_vm_result)
    (hfail : Event.malloc n r ∈ (csr_gen sgn rt vm uninit kp kl parameters).w.trace)
    (herr : r.err ≠ none) :
    ∃ (A F : List (Nat × wasm_vm_result)) (pre : List (String × Option String))
      (name s : String) (post : List (String × Option String)),
      fields parameters = pre ++ (name, some s) :: post ∧
      n = i32_of (strlen s) ∧
      (csr_gen sgn rt vm uninit kp kl parameters).w.trace =
        A.map malloc_event ++ [Event.malloc n r] ++ F.map free_event ∧
      A.map Prod.fst = present_lens pre ∧
      (∀ x ∈ A, x.2.err = none) ∧
      F.map Prod.fst = ((A.map returned_addr).filter (fun a => !le_one sgn a)).reverse ∧
      (csr_gen sgn rt vm uninit kp kl parameters).result.err =
        first_some (last_free_err (csr_gen sgn rt vm uninit kp kl parameters).w.trace)
          (some ("error during allocating ptr with length for " ++ name)) ∧
      ((∀ x ∈ F, x.2.err = none) →
        (csr_gen sgn rt vm uninit kp kl parameters).result.err =
          some ("error during allocating ptr with length for " ++ name)) := by
  rcases csr_gen_shape sgn rt vm uninit kp kl parameters with
    ⟨A, r0, pre, name, s, post, F, hfs, _, ht, hok, hs, hF, hr, _⟩ | ⟨A, res0, F, ht, hok, _, _, _⟩
  · have hm := hfail
    rw [ht, malloc_mem_iff] at hm
    rcases hm with hm | hm
    · exact absurd (hok _ hm).1 herr
    · injection hm with hn hr0
      subst hn
      subst hr0
      have hle : last_free_err (csr_gen sgn rt vm uninit kp kl parameters).w.trace =
          last_free_err (F.map free_event) := by
        rw [ht]
        exact last_free_err_shape A F _ rfl
      refine ⟨A, F, pre, name, s, post, hfs, rfl, ht, hs, fun x hx => (hok x hx).1, hF, ?_, ?_⟩
      · rw [hle, hr]; rfl
      · intro hFok
        rw [hr, last_free_err_none F hFok]
        rfl
  · exfalso
    have hm := hfail
    rw [ht, malloc_mem_iff] at hm
    rcases hm with hm | hm
    · exact herr (hok _ hm).1
    · cases hm

/-- The scenario of C3: `dns` and `email` present, the allocation for `email`
fails; the error names `email` and the one free is that of the `dns`
address. -/
theorem csr_gen_alloc_failure_witness :
    (csr_gen true scripted [ok 0x200, failed "oom"] clean_slot 64 32 dns_and_email).w.trace =
      [Event.malloc 9 (ok 0x200), Event.malloc 5 (failed "oom"), Event.free 0x200 (ok 0)] ∧
    (csr_gen true scripted [ok 0x200, failed "oom"] clean_slot 64 32 dns_and_email).result.err =
      some "error during allocating ptr with length for email" ∧
    ∃ (A F : List (Nat × wasm_vm_result)) (pre : List (String × Option String))
      (name s : String) (post : List (String × Option String)),
      fields dns_and_email = pre ++ (name, some s) :: post ∧
      5 = i32_of (strlen s) ∧
      (csr_gen true scripted [ok 0x200, failed "oom"] clean_slot 64 32 dns_and_email).w.trace =
        A.map malloc_event ++ [Event.malloc 5 (failed "oom")] ++ F.map free_event ∧
      A.map Prod.fst = present_lens pre ∧
      (∀ x ∈ A, x.2.err = none) ∧
      F.map Prod.fst = ((A.map returned_addr).filter (fun a => !le_one true a)).reverse ∧
      (csr_gen true scripted [ok 0x200, failed "oom"] clean_slot 64 32 dns_and_email).result.err =
        first_some (last_free_err
            (csr_gen true scripted [ok 0x200, failed "oom"] clean_slot 64 32
              dns_and_email).w.trace)
          (some ("error during allocating ptr with length for " ++ name)) ∧
      ((∀ x ∈ F, x.2.err = none) →
        (csr_gen true scripted [ok 0x200, failed "oom"] clean_slot 64 32
            dns_and_email).result.err =
          some ("error during allocating ptr with length for " ++ name)) :=
  ⟨by decide, by decide,
    csr_gen_alloc_failure true scripted _ clean_slot 64 32 dns_and_email 5 (failed "oom")
      (by decide) (by decide)⟩

/-! ## C4: decoding the packed result -/

theorem packed_eq (ptr len : Nat) (hlen : len < 2 ^ 32) :
    ptr <<< 32 ||| len = 2 ^ 32 * ptr + len := by
  rw [Nat.shiftLeft_eq, Nat.mul_comm, Nat.mul_add_lt_is_or hlen]

theorem decode_packed (uninit : csr_result) (res : wasm_vm_result) (ptr len : Nat)
    (hok : res.err = none) (hptr : ptr < 2 ^ 32) (hlen : len < 2 ^ 32)
    (hv : res.data = ptr <<< 32 ||| len) :
    (res.data ≠ 0 → decode res uninit = { uninit with csr_len := len, csr_ptr := ptr }) ∧
    (res.data = 0 →
      decode res uninit = { uninit with err := some "could not generate csr: empty value" }) := by
  rw [packed_eq ptr len hlen] at hv
  norm_num at hv hptr hlen
  constructor
  · intro hne
    have h1 : ¬ res.data % 2 ^ 64 = 0 := by norm_num; omega
    have h2 : i32_of (res.data % 2 ^ 64) = len := by unfold i32_of; norm_num; omega
    have h3 : i32_of (res.data % 2 ^ 64 / 2 ^ 32) = ptr := by unfold i32_of; norm_num; omega
    simp only [decode, hok, Option.isSome_none, Bool.false_eq_true, if_false, h1, h2, h3]
  · intro h0
    have h1 : res.data % 2 ^ 64 = 0 := by rw [h0]; rfl
    simp only [decode, hok, Option.isSome_none, Bool.false_eq_true, if_false, h1, if_true]

/-- C4, as stated, fails in its second half: with `subject` present, the
generate call succeeding with the packed value 0, and the free of the subject
buffer failing, `csr_gen` returns the error of the free, not the empty-result
error. -/
theorem csr_gen_empty_value_error_overwritten :
    (csr_gen true scripted [ok 0x2000, ok (packed 0 0), failed "bad free"]
      clean_slot 64 32 subject_only).w.trace =
      [Event.malloc 7 (ok 0x2000),
       Event.generate [64, 32, 0x2000, 7, 0, 0, 0, 0, 0, 0, 0, 0] (ok 0),
       Event.free 0x2000 (failed "bad free")] ∧
    (csr_gen true scripted [ok 0x2000, ok (packed 0 0), failed "bad free"]
      clean_slot 64 32 subject_only).result.err = some "bad free" ∧
    (csr_gen true scripted [ok 0x2000, ok (packed 0 0), failed "bad free"]
      clean_slot 64 32 subject_only).result.err ≠ some "could not generate csr: empty value" := by
  decide

/-- C4, amended: when the generate call succeeds with the 64-bit value
`v = (ptr << 32) | len`, `ptr` and `len` below `2 ^ 32`: if `v` is not zero
the returned result has `csr_ptr = ptr` and `csr_len = len`; if `v` is zero
`csr_gen` stores no pointer and no length, and the error it returns is the
empty-result error unless a free of the cleanup fails, and then it is the
error of the last failed free. -/
theorem csr_gen_decodes_packed_value {σ : Type} (sgn : Bool) (rt : csr_vm σ) (vm : σ)
    (uninit : csr_result) (kp kl : Nat) (parameters : csr_parameters)
    (args : List Nat) (res : wasm_vm_result) (ptr len : Nat)
    (hgen : Event.generate args res ∈ (csr_gen sgn rt vm uninit kp kl parameters).w.trace)
    (hok : res.err = none) (hptr : ptr < 2 ^ 32) (hlen : len < 2 ^ 32)
    (hv : res.data = ptr <<< 32 ||| len) :
    (res.data ≠ 0 →
      (csr_gen sgn rt vm uninit kp kl parameters).result.csr_ptr = ptr ∧
      (csr_gen sgn rt vm uninit kp kl parameters).result.csr_len = len) ∧
    (res.data = 0 →
      (csr_gen sgn rt vm uninit kp kl parameters).result.err =
        first_some (last_free_err (csr_gen sgn rt vm uninit kp kl parameters).w.trace)
          (some "could not generate csr: empty value") ∧
      ((∀ p r, Event.free p r ∈ (csr_gen sgn rt vm uninit kp kl parameters).w.trace →
          r.err = none) →
        (csr_gen sgn rt vm uninit kp kl parameters).result.err =
          some "could not generate csr: empty value") ∧
      (csr_gen sgn rt vm uninit kp kl parameters).result.csr_ptr = uninit.csr_ptr ∧
      (csr_gen sgn rt vm uninit kp kl parameters).result.csr_len = uninit.csr_len) := by
  rcases csr_gen_shape sgn rt vm uninit kp kl parameters with
    ⟨A, r, pre, name, s, post, F, _, _, ht, _, _, _, _⟩ | ⟨A, res0, F, ht, hok0, _, _, hr, _⟩
  · rw [ht] at hgen
    exact absurd hgen (generate_not_mem_bail A F _ r args res)
  · have hg := hgen
    rw [ht] at hg
    obtain ⟨ha, hres⟩ := generate_mem_gen hg
    subst ha
    subst hres
    obtain ⟨hnz, hz⟩ := decode_packed uninit res ptr len hok hptr hlen hv
    have hle : last_free_err (csr_gen sgn rt vm uninit kp kl parameters).w.trace =
        last_free_err (F.map free_event) := by
      rw [ht]
      exact last_free_err_shape A F _ rfl
    constructor
    · intro hne
      rw [hr, hnz hne]
      exact ⟨rfl, rfl⟩
    · intro h0
      rw [hle, hr, hz h0]
      refine ⟨rfl, ?_, rfl, rfl⟩
      intro hfree
      rw [last_free_err_none F
        (fun x hx => hfree x.1 x.2 (by rw [ht, free_mem_iff]; exact Or.inl hx))]
      rfl

/-- A run of C4 (amended): the generate call succeeds with
`(0x1000 << 32) | 42`; the result has pointer `0x1000` and length `42`. -/
theorem csr_gen_decodes_packed_value_witness :
    Event.generate [64, 32, 0x2000, 7, 0, 0, 0, 0, 0, 0, 0, 0] (ok (0x1000 <<< 32 ||| 42)) ∈
      (csr_gen true scripted [ok 0x2000, ok (0x1000 <<< 32 ||| 42)]
        clean_slot 64 32 subject_only).w.trace ∧
    (ok (0x1000 <<< 32 ||| 42)).data ≠ 0 ∧
    (csr_gen true scripted [ok 0x2000, ok (0x1000 <<< 32 ||| 42)]
      clean_slot 64 32 subject_only).result.csr_ptr = 0x1000 ∧
    (csr_gen true scripted [ok 0x2000, ok (0x1000 <<< 32 ||| 42)]
      clean_slot 64 32 subject_only).result.csr_len = 42 :=
  ⟨by decide, by decide,
    (csr_gen_decodes_packed_value true scripted _ clean_slot 64 32 subject_only
      [64, 32, 0x2000, 7, 0, 0, 0, 0, 0, 0, 0, 0]
      (ok (0x1000 <<< 32 ||| 42)) 0x1000 42 (by decide) rfl (by decide) (by decide) rfl).1
      (by decide)⟩

/-! ## C5: the error of a successful run -/

/-- C5, the code at the failing input: only `subject = "CN=test"` present,
every guest call succeeds, generate returns `(0x1000 << 32) | 42`, one
allocation and one free are made; `csr_gen` never writes `result.err` on this
path, so the error it returns is what the stack slot of `result` held on
entry, here a pointer that is not `NULL`. -/
theorem csr_gen_success_returns_uninitialised_err :
    (csr_gen true scripted [ok 0x2000, ok (packed 0x1000 42), ok 0]
      stale_slot 64 32 subject_only).w.trace =
      [Event.malloc 7 (ok 0x2000),
       Event.generate [64, 32, 0x2000, 7, 0, 0, 0, 0, 0, 0, 0, 0] (ok (packed 0x1000 42)),
       Event.free 0x2000 (ok 0)] ∧
    (csr_gen true scripted [ok 0x2000, ok (packed 0x1000 42), ok 0]
      stale_slot 64 32 subject_only).result =
      { csr_ptr := 0x1000, csr_len := 42, err := some "stale" } := by
  decide

/-- On the path of C5 the returned error is, for every request and guest, the
content of the slot on entry: when the generate call succeeds with a non-zero
value and no free fails, `result.err` is `uninit.err`. -/
theorem csr_gen_success_err_is_entry_content {σ : Type} (sgn : Bool) (rt : csr_vm σ) (vm : σ)
    (uninit : csr_result) (kp kl : Nat) (parameters : csr_parameters)
    (args : List Nat) (res : wasm_vm_result)
    (hgen : Event.generate args res ∈ (csr_gen sgn rt vm uninit kp kl parameters).w.trace)
    (hok : res.err = none) (hv : res.data % 2 ^ 64 ≠ 0)
    (hfree : ∀ p r, Event.free p r ∈ (csr_gen sgn rt vm uninit kp kl parameters).w.trace →
      r.err = none) :
    (csr_gen sgn rt vm uninit kp kl parameters).result =
      { csr_ptr := i32_of (res.data % 2 ^ 64 / 2 ^ 32), csr_len := i32_of (res.data % 2 ^ 64),
        err := uninit.err } := by
  rcases csr_gen_shape sgn rt vm uninit kp kl parameters with
    ⟨A, r, pre, name, s, post, F, _, _, ht, _, _, _, _⟩ | ⟨A, res0, F, ht, hok0, _, _, hr, _⟩
  · rw [ht] at hgen
    exact absurd hgen (generate_not_mem_bail A F _ r args res)
  · have hg := hgen
    rw [ht] at hg
    obtain ⟨ha, hres⟩ := generate_mem_gen hg
    subst ha
    subst hres
    rw [hr, last_free_err_none F
      (fun x hx => hfree x.1 x.2 (by rw [ht, free_mem_iff]; exact Or.inl hx))]
    simp only [decode, hok, Option.isSome_none, Bool.false_eq_true, if_false, hv, first_some]

/-! ## C6: the cleanup pass -/

theorem recorded_addrs_failed (n : Nat) (r : wasm_vm_result)
    (h : r.err ≠ none ∨ i32_of r.data = MINUS_ONE) : recorded_addrs [Event.malloc n r] = [] := by
  rcases h with h | h
  · obtain ⟨e, he⟩ := Option.ne_none_iff_exists'.mp h
    simp [recorded_addrs, he]
  · simp [recorded_addrs, h]

theorem le_one_false_of_range (sgn : Bool) (a : Nat) (h2 : 2 ≤ a) (h31 : a < 2 ^ 31) :
    le_one sgn a = false := by
  norm_num at h31
  have hm : a % 4294967296 = a := Nat.mod_eq_of_lt (by omega)
  cases sgn
  · simp [le_one]; omega
  · simp only [le_one, i32_val, if_true]
    norm_num
    rw [hm, if_pos (by omega)]
    omega

theorem le_one_unsigned_false (a : Nat) (h0 : a ≠ 0) (h1 : a ≠ 1) : le_one false a = false := by
  simp [le_one]; omega

theorem freed_exact {σ : Type} (sgn : Bool) (rt : csr_vm σ) (vm : σ)
    (uninit : csr_result) (kp kl : Nat) (parameters : csr_parameters) :
    freed_ptrs (csr_gen sgn rt vm uninit kp kl parameters).w.trace =
      (((csr_gen_to_bail rt vm uninit kp kl parameters).pointers.take
          (csr_gen_to_bail rt vm uninit kp kl parameters).i).filter
        (fun a => !le_one sgn a)).reverse ∧
    (csr_gen_to_bail rt vm uninit kp kl parameters).pointers.take
        (csr_gen_to_bail rt vm uninit kp kl parameters).i =
      recorded_addrs (csr_gen sgn rt vm uninit kp kl parameters).w.trace ∧
    (∀ e, last_free_err (csr_gen sgn rt vm uninit kp kl parameters).w.trace = some e →
      (csr_gen sgn rt vm uninit kp kl parameters).result.err = some e) := by
  rcases csr_gen_shape sgn rt vm uninit kp kl parameters with
    ⟨A, r, pre, name, s, post, F, _, hbad, ht, hok, _, hF, hr, hP⟩ |
    ⟨A, res0, F, ht, hok, _, hF, hr, hP⟩
  · refine ⟨?_, ?_, ?_⟩
    · rw [ht, hP]
      simp only [freed_ptrs_append, freed_ptrs_malloc, freed_ptrs_free, List.nil_append]
      rw [show freed_ptrs [Event.malloc (i32_of (strlen s)) r] = [] from rfl, List.nil_append]
      exact hF
    · rw [ht, hP]
      simp only [recorded_addrs_append, recorded_addrs_malloc A hok, recorded_addrs_free,
        recorded_addrs_failed _ r hbad, List.append_nil]
    · intro e he
      rw [ht, last_free_err_shape A F (Event.malloc (i32_of (strlen s)) r) rfl] at he
      rw [hr, he]
      rfl
  · refine ⟨?_, ?_, ?_⟩
    · rw [ht, hP]
      simp only [freed_ptrs_append, freed_ptrs_malloc, freed_ptrs_free, List.nil_append]
      rw [show freed_ptrs [Event.generate (kp :: kl :: pair_args
            ((fields parameters).map Prod.snd) (A.map returned_addr)) res0] = [] from rfl,
        List.nil_append]
      exact hF
    · rw [ht, hP]
      simp only [recorded_addrs_append, recorded_addrs_malloc A hok, recorded_addrs_free,
        List.append_nil]
      rw [show recorded_addrs [Event.generate (kp :: kl :: pair_args
            ((fields parameters).map Prod.snd) (A.map returned_addr)) res0] = [] from rfl,
        List.append_nil]
    · intro e he
      rw [ht, last_free_err_shape A F (Event.generate (kp :: kl :: pair_args
        ((fields parameters).map Prod.snd) (A.map returned_addr)) res0) rfl] at he
      rw [hr, he]
      rfl

/-- C6, as stated, fails when `i32` is signed: with only `subject` present and
an allocator that answers successfully with the address `0x80000000`, the
address is recorded in the allocation set and is neither 0 nor 1, yet no free
is attempted for it, because `pointers[i] <= 1` holds of a negative `i32`.
With an unsigned `i32` the same run does free the address. -/
theorem csr_gen_high_address_never_freed :
    (csr_gen_to_bail scripted [ok 0x80000000, ok (packed 0x1000 42)] clean_slot 64 32
      subject_only).pointers.take
        (csr_gen_to_bail scripted [ok 0x80000000, ok (packed 0x1000 42)] clean_slot 64 32
          subject_only).i = [0x80000000] ∧
    (csr_gen true scripted [ok 0x80000000, ok (packed 0x1000 42)] clean_slot 64 32
      subject_only).w.trace =
      [Event.malloc 7 (ok 0x80000000),
       Event.generate [64, 32, 0x80000000, 7, 0, 0, 0, 0, 0, 0, 0, 0] (ok (packed 0x1000 42))] ∧
    freed_ptrs (csr_gen true scripted [ok 0x80000000, ok (packed 0x1000 42)] clean_slot 64 32
      subject_only).w.trace = [] ∧
    freed_ptrs (csr_gen false scripted [ok 0x80000000, ok (packed 0x1000 42)] clean_slot 64 32
      subject_only).w.trace = [0x80000000] := by
  decide

/-- C6, amended: in every run of `csr_gen`, whatever frees fail, the addresses
passed to the guest free function are exactly the addresses of the allocation
set (`pointers[0 .. i-1]` at the label `bail`, the addresses of the
allocations that succeeded) that the test `pointers[i] <= 1` does not skip,
in reverse order.  So a free is attempted for every recorded address from 2
up to `2 ^ 31 - 1`, and when `i32` is unsigned for every recorded address
other than 0 and 1; a signed `i32` makes the test skip every address with
the top bit set as well.  When at least one free fails, the error of the
returned result is the error of the last failed free, whatever error or
success came before. -/
theorem csr_gen_cleanup_frees_every_unskipped {σ : Type} (sgn : Bool) (rt : csr_vm σ) (vm : σ)
    (uninit : csr_result) (kp kl : Nat) (parameters : csr_parameters) :
    freed_ptrs (csr_gen sgn rt vm uninit kp kl parameters).w.trace =
      (((csr_gen_to_bail rt vm uninit kp kl parameters).pointers.take
          (csr_gen_to_bail rt vm uninit kp kl parameters).i).filter
        (fun a => !le_one sgn a)).reverse ∧
    (csr_gen_to_bail rt vm uninit kp kl parameters).pointers.take
        (csr_gen_to_bail rt vm uninit kp kl parameters).i =
      recorded_addrs (csr_gen sgn rt vm uninit kp kl parameters).w.trace ∧
    (∀ a ∈ (csr_gen_to_bail rt vm uninit kp kl parameters).pointers.take
        (csr_gen_to_bail rt vm uninit kp kl parameters).i,
      2 ≤ a → a < 2 ^ 31 →
        a ∈ freed_ptrs (csr_gen sgn rt vm uninit kp kl parameters).w.trace) ∧
    (sgn = false →
      ∀ a ∈ (csr_gen_to_bail rt vm uninit kp kl parameters).pointers.take
          (csr_gen_to_bail rt vm uninit kp kl parameters).i,
        a ≠ 0 → a ≠ 1 →
          a ∈ freed_ptrs (csr_gen sgn rt vm uninit kp kl parameters).w.trace) ∧
    (∀ a ∈ freed_ptrs (csr_gen sgn rt vm uninit kp kl parameters).w.trace,
      a ≠ 0 ∧ a ≠ 1 ∧
      a ∈ (csr_gen_to_bail rt vm uninit kp kl parameters).pointers.take
        (csr_gen_to_bail rt vm uninit kp kl parameters).i) ∧
    (∀ e, last_free_err (csr_gen sgn rt vm uninit kp kl parameters).w.trace = some e →
      (csr_gen sgn rt vm uninit kp kl parameters).result.err = some e) := by
  obtain ⟨h1, h2, h3⟩ := freed_exact sgn rt vm uninit kp kl parameters
  refine ⟨h1, h2, ?_, ?_, ?_, h3⟩
  · intro a ha h2a h31
    rw [h1, List.mem_reverse, List.mem_filter]
    exact ⟨ha, by simp [le_one_false_of_range sgn a h2a h31]⟩
  · intro hs a ha h0 h1a
    subst hs
    rw [h1, List.mem_reverse, List.mem_filter]
    exact ⟨ha, by simp [le_one_unsigned_false a h0 h1a]⟩
  · intro a ha
    rw [h1, List.mem_reverse, List.mem_filter] at ha
    obtain ⟨hin, hle⟩ := ha
    have hle1 : le_one sgn a = false := by simpa using hle
    refine ⟨?_, ?_, hin⟩
    · intro h0
      subst h0
      cases sgn <;> simp [le_one, i32_val] at hle1
    · intro h0
      subst h0
      cases sgn <;> simp [le_one, i32_val] at hle1

/-- A run of C6 (amended): two buffers, both frees fail; both are attempted,
and the error returned is that of the second free issued. -/
theorem csr_gen_cleanup_frees_every_unskipped_witness :
    freed_ptrs (csr_gen true scripted
      [ok 0x200, ok 0x400, ok (packed 0x1000 42), failed "first free", failed "second free"]
      clean_slot 64 32 dns_and_email).w.trace = [0x400, 0x200] ∧
    last_free_err (csr_gen true scripted
      [ok 0x200, ok 0x400, ok (packed 0x1000 42), failed "first free", failed "second free"]
      clean_slot 64 32 dns_and_email).w.trace = some "second free" ∧
    (csr_gen true scripted
      [ok 0x200, ok 0x400, ok (packed 0x1000 42), failed "first free", failed "second free"]
      clean_slot 64 32 dns_and_email).result.err = some "second free" :=
  ⟨by decide, by decide,
    (csr_gen_cleanup_frees_every_unskipped true scripted _ clean_slot 64 32
      dns_and_email).2.2.2.2.2 "second free" (by decide)⟩

/-! ## C7: the arguments of the generate call -/

/-- C7, as stated, fails: with only `subject` present and an allocator that
answers successfully with the address `0xFFFFFFFF`, the pattern of `-1`, the
only guest call of the run is that allocation; the generate function is never
invoked. -/
theorem csr_gen_minus_one_address_skips_generate :
    (csr_gen true scripted [ok 0xFFFFFFFF, ok (packed 0x1000 42)]
      clean_slot 64 32 subject_only).w.trace = [Event.malloc 7 (ok 0xFFFFFFFF)] ∧
    (csr_gen false scripted [ok 0xFFFFFFFF, ok (packed 0x1000 42)]
      clean_slot 64 32 subject_only).w.trace = [Event.malloc 7 (ok 0xFFFFFFFF)] := by
  decide

/-- C7, amended: when every allocator call of a run succeeds with an address
other than `0xFFFFFFFF` (the pattern of `-1`), `csr_gen` invokes the generate
function exactly once, after one allocation per present field, with twelve
arguments: the private-key pointer and length, then for subject, dns, uri,
email, ip in this order the pair (address the allocator returned, `i32`
length of the field) when the field is present and (0, 0) when it is absent. -/
theorem csr_gen_generate_arguments {σ : Type} (sgn : Bool) (rt : csr_vm σ) (vm : σ)
    (uninit : csr_result) (kp kl : Nat) (parameters : csr_parameters)
    (hmalloc : ∀ n r, Event.malloc n r ∈ (csr_gen sgn rt vm uninit kp kl parameters).w.trace →
      r.err = none ∧ i32_of r.data ≠ MINUS_ONE) :
    ∃ (A : List (Nat × wasm_vm_result)) (res : wasm_vm_result)
      (F : List (Nat × wasm_vm_result)),
      (csr_gen sgn rt vm uninit kp kl parameters).w.trace =
        A.map malloc_event ++
          [Event.generate (kp :: kl ::
            pair_args [parameters.subject, parameters.dns, parameters.uri, parameters.email,
              parameters.ip] (A.map returned_addr)) res] ++
          F.map free_event ∧
      A.map Prod.fst = present_lens (fields parameters) ∧
      (kp :: kl :: pair_args [parameters.subject, parameters.dns, parameters.uri,
        parameters.email, parameters.ip] (A.map returned_addr)).length = 12 := by
  rcases csr_gen_shape sgn rt vm uninit kp kl parameters with
    ⟨A, r, pre, name, s, post, F, _, hbad, ht, _, _, _, _⟩ | ⟨A, res, F, ht, _, hs, _, _⟩
  · exfalso
    have hm := hmalloc (i32_of (strlen s)) r (by rw [ht, malloc_mem_iff]; exact Or.inr rfl)
    rcases hbad with hbad | hbad
    · exact hbad hm.1
    · exact hm.2 hbad
  · exact ⟨A, res, F, ht, hs, by simp [pair_args_length]⟩

/-- Two runs of C7 (amended).  With all five fields present the twelve
arguments carry the five returned addresses and the five lengths.  With no
field present the five pairs are (0, 0) and the generate call is the only
guest call: no allocation, no free. -/
theorem csr_gen_generate_arguments_witness :
    (csr_gen true scripted
        [ok 0x100, ok 0x200, ok 0x300, ok 0x400, ok 0x500, ok (packed 0x1000 42)]
        clean_slot 64 32 all_five).w.trace =
        [Event.malloc 7 (ok 0x100), Event.malloc 9 (ok 0x200), Event.malloc 12 (ok 0x300),
         Event.malloc 5 (ok 0x400), Event.malloc 8 (ok 0x500),
         Event.generate [64, 32, 0x100, 7, 0x200, 9, 0x300, 12, 0x400, 5, 0x500, 8]
           (ok (packed 0x1000 42)),
         Event.free 0x500 (ok 0), Event.free 0x400 (ok 0), Event.free 0x300 (ok 0),
         Event.free 0x200 (ok 0), Event.free 0x100 (ok 0)] ∧
    (csr_gen true scripted [ok (packed 0x1000 42)] clean_slot 64 32 no_parameters).w.trace =
      [Event.generate [64, 32, 0, 0, 0, 0, 0, 0, 0, 0, 0, 0] (ok (packed 0x1000 42))] ∧
    ∃ (A : List (Nat × wasm_vm_result)) (res : wasm_vm_result)
      (F : List (Nat × wasm_vm_result)),
      (csr_gen true scripted
        [ok 0x100, ok 0x200, ok 0x300, ok 0x400, ok 0x500, ok (packed 0x1000 42)]
        clean_slot 64 32 all_five).w.trace =
        A.map malloc_event ++
          [Event.generate (64 :: 32 ::
            pair_args [all_five.subject, all_five.dns, all_five.uri, all_five.email,
              all_five.ip] (A.map returned_addr)) res] ++
          F.map free_event ∧
      A.map Prod.fst = present_lens (fields all_five) ∧
      (64 :: 32 :: pair_args [all_five.subject, all_five.dns, all_five.uri,
        all_five.email, all_five.ip] (A.map returned_addr)).length = 12 := by
  have ht : (csr_gen true scripted
        [ok 0x100, ok 0x200, ok 0x300, ok 0x400, ok 0x500, ok (packed 0x1000 42)]
        clean_slot 64 32 all_five).w.trace =
        [Event.malloc 7 (ok 0x100), Event.malloc 9 (ok 0x200), Event.malloc 12 (ok 0x300),
         Event.malloc 5 (ok 0x400), Event.malloc 8 (ok 0x500),
         Event.generate [64, 32, 0x100, 7, 0x200, 9, 0x300, 12, 0x400, 5, 0x500, 8]
           (ok (packed 0x1000 42)),
         Event.free 0x500 (ok 0), Event.free 0x400 (ok 0), Event.free 0x300 (ok 0),
         Event.free 0x200 (ok 0), Event.free 0x100 (ok 0)] := by decide
  refine ⟨ht, by decide,
    csr_gen_generate_arguments true scripted _ clean_slot 64 32 all_five ?_⟩
  intro n r hm
  rw [ht] at hm
  simp only [List.mem_cons, Event.malloc.injEq, List.mem_singleton, reduceCtorEq, false_or,
    or_false, List.not_mem_nil] at hm
  rcases hm with ⟨_, rfl⟩ | ⟨_, rfl⟩ | ⟨_, rfl⟩ | ⟨_, rfl⟩ | ⟨_, rfl⟩ <;> decide

/-! ## C8: a failed binding leaves the slot empty -/

/-- C8: if any of the three lookups (`csr_gen`, `csr_malloc`, `csr_free`) of
`init_csr_for` fails, `init_csr_for` returns an error and the slot of the
core is `NULL` afterwards, whether it was empty or held an instance before;
the other slots are unchanged. -/
theorem init_csr_for_failure_clears_slot
    (wasm_vm_get_function : wasm_vm → String → String → wasm_vm_result) (kzalloc_ok : Bool)
    (uninit : wasm_vm_result) (csr_modules : Nat → Option csr_module) (vm : wasm_vm)
    (module : wasm_vm_module)
    (hfail : (wasm_vm_get_function vm module.name "csr_gen").err ≠ none ∨
      (wasm_vm_get_function vm module.name "csr_malloc").err ≠ none ∨
      (wasm_vm_get_function vm module.name "csr_free").err ≠ none) :
    (init_csr_for wasm_vm_get_function kzalloc_ok uninit csr_modules vm module).1.err ≠ none ∧
    (init_csr_for wasm_vm_get_function kzalloc_ok uninit csr_modules vm module).2
      (wasm_vm_cpu vm) = none ∧
    ∀ c, c ≠ wasm_vm_cpu vm →
      (init_csr_for wasm_vm_get_function kzalloc_ok uninit csr_modules vm module).2 c =
        csr_modules c := by
  have key : ∀ l0 : InitFrame,
      (init_csr_for_to_error wasm_vm_get_function vm module l0).result.err.isSome = true := by
    intro l0
    unfold init_csr_for_to_error
    cases h1 : (wasm_vm_get_function vm module.name "csr_gen").err with
    | some e1 => simp [wasm_vm_try_get_function, h1]
    | none =>
      cases h2 : (wasm_vm_get_function vm module.name "csr_malloc").err with
      | some e2 => simp [wasm_vm_try_get_function, h1, h2]
      | none =>
        cases h3 : (wasm_vm_get_function vm module.name "csr_free").err with
        | some e3 => simp [wasm_vm_try_get_function, h1, h2, h3]
        | none => simp [h1, h2, h3] at hfail
  have key2 : ∀ l0 : InitFrame,
      (init_csr_for_to_error wasm_vm_get_function vm module l0).result.err ≠ none := by
    intro l0 hn
    have := key l0
    rw [hn] at this
    simp at this
  unfold init_csr_for
  cases hslot : csr_modules (wasm_vm_cpu vm) with
  | some csr =>
    simp only [hslot, key, if_true]
    exact ⟨key2 _, by simp, fun c hc => by simp [Function.update, hc]⟩
  | none =>
    cases kzalloc_ok with
    | false =>
      simp [hslot, wasm_vm_error]
    | true =>
      simp only [hslot, key, if_true]
      exact ⟨key2 _, by simp, fun c hc => by simp [Function.update, hc]⟩

/-- Two bindings of C8 on core 2 in which `csr_malloc` does not resolve: one
over a bound instance, one over an empty slot; each returns the error of the
lookup and leaves the slot empty. -/
theorem init_csr_for_failure_clears_slot_witness :
    registry_core_2 2 ≠ none ∧
    (init_csr_for lookup_without_malloc true wasm_vm_ok registry_core_2 { cpu := 2 }
      { name := "csr" }).1.err = some "function not found" ∧
    (init_csr_for lookup_without_malloc true wasm_vm_ok (fun _ => none) { cpu := 2 }
      { name := "csr" }).2 2 = none ∧
    ((init_csr_for lookup_without_malloc true wasm_vm_ok registry_core_2 { cpu := 2 }
        { name := "csr" }).1.err ≠ none ∧
      (init_csr_for lookup_without_malloc true wasm_vm_ok registry_core_2 { cpu := 2 }
        { name := "csr" }).2 (wasm_vm_cpu { cpu := 2 }) = none ∧
      ∀ c, c ≠ wasm_vm_cpu { cpu := 2 } →
        (init_csr_for lookup_without_malloc true wasm_vm_ok registry_core_2 { cpu := 2 }
          { name := "csr" }).2 c = registry_core_2 c) :=
  ⟨by decide, by decide, by decide,
    init_csr_for_failure_clears_slot lookup_without_malloc true wasm_vm_ok registry_core_2
      { cpu := 2 } { name := "csr" } (Or.inr (Or.inl (by decide)))⟩

/-! ## C9: sentinel addresses are never freed -/

/-- C9: in every run of `csr_gen`, no guest free call is issued with the
address 0 or 1, nor with any address for which the test `pointers[i] <= 1`
holds. -/
theorem csr_gen_never_frees_sentinel {σ : Type} (sgn : Bool) (rt : csr_vm σ) (vm : σ)
    (uninit : csr_result) (kp kl : Nat) (parameters : csr_parameters)
    (p : Nat) (r : wasm_vm_result)
    (h : Event.free p r ∈ (csr_gen sgn rt vm uninit kp kl parameters).w.trace) :
    p ≠ 0 ∧ p ≠ 1 ∧ le_one sgn p = false := by
  have hF : ∀ (A F : List (Nat × wasm_vm_result)), (p, r) ∈ F →
      F.map Prod.fst = to_free sgn (A.map returned_addr) → le_one sgn p = false := by
    intro A F hm hf
    have h1 : p ∈ F.map Prod.fst := List.mem_map.mpr ⟨(p, r), hm, rfl⟩
    rw [hf, to_free, List.mem_reverse, List.mem_filter] at h1
    simpa using h1.2
  have hle : le_one sgn p = false := by
    rcases csr_gen_shape sgn rt vm uninit kp kl parameters with
      ⟨A, r0, pre, name, s, post, F, _, _, ht, _, _, hf, _⟩ | ⟨A, res0, F, ht, _, _, hf, _⟩
    · rw [ht, free_mem_iff] at h
      rcases h with h | h
      · exact hF A F h hf
      · cases h
    · rw [ht, free_mem_iff] at h
      rcases h with h | h
      · exact hF A F h hf
      · cases h
  refine ⟨?_, ?_, hle⟩
  · intro h0
    subst h0
    cases sgn <;> simp [le_one, i32_val] at hle
  · intro h1
    subst h1
    cases sgn <;> simp [le_one, i32_val] at hle

/-- A run of C9: the allocator answers 1 for `dns` and `0x400` for `email`;
the only free of the run is that of `0x400`. -/
theorem csr_gen_never_frees_sentinel_witness :
    (csr_gen true scripted [ok 1, ok 0x400, ok (packed 0x1000 42)]
      clean_slot 64 32 dns_and_email).w.trace =
      [Event.malloc 9 (ok 1), Event.malloc 5 (ok 0x400),
       Event.generate [64, 32, 0, 0, 1, 9, 0, 0, 0x400, 5, 0, 0] (ok (packed 0x1000 42)),
       Event.free 0x400 (ok 0)] ∧
    (0x400 ≠ 0 ∧ 0x400 ≠ 1 ∧ le_one true 0x400 = false) :=
  ⟨by decide,
    csr_gen_never_frees_sentinel true scripted [ok 1, ok 0x400, ok (packed 0x1000 42)]
      clean_slot 64 32 dns_and_email 0x400 (ok 0) (by decide)⟩

/-! ## C10: when an allocation counts as failed -/

/-- C10, as stated, fails: with only `subject` present and an allocator that
returns no error and the address `0xFFFFFFFF`, `csr_gen` reports the
allocation error for `subject`; the address is not recorded, and no generate
call is made. -/
theorem csr_gen_minus_one_address_reported_as_failure :
    (csr_gen true scripted [ok 0xFFFFFFFF] clean_slot 64 32 subject_only).w.trace =
      [Event.malloc 7 { data := 0xFFFFFFFF, err := none }] ∧
    (csr_gen true scripted [ok 0xFFFFFFFF] clean_slot 64 32 subject_only).result.err =
      some "error during allocating ptr with length for subject" ∧
    recorded_addrs
      (csr_gen true scripted [ok 0xFFFFFFFF] clean_slot 64 32 subject_only).w.trace = [] := by
  decide

theorem malloc_calls_append (s t : List Event) :
    malloc_calls (s ++ t) = malloc_calls s ++ malloc_calls t := by
  simp [malloc_calls]

theorem malloc_calls_malloc (A : List (Nat × wasm_vm_result)) :
    malloc_calls (A.map malloc_event) = A := by
  induction A with
  | nil => rfl
  | cons x A ih =>
    simp only [malloc_calls] at ih
    simp [malloc_calls, malloc_event, ih]

theorem malloc_calls_free (F : List (Nat × wasm_vm_result)) :
    malloc_calls (F.map free_event) = [] := by
  simp [malloc_calls, free_event]

theorem generate_calls_append (s t : List Event) :
    generate_calls (s ++ t) = generate_calls s ++ generate_calls t := by
  simp [generate_calls]

theorem generate_calls_malloc (A : List (Nat × wasm_vm_result)) :
    generate_calls (A.map malloc_event) = [] := by
  simp [generate_calls, malloc_event]

theorem generate_calls_free (F : List (Nat × wasm_vm_result)) :
    generate_calls (F.map free_event) = [] := by
  simp [generate_calls, free_event]

theorem present_lens_split (pre post : List (String × Option String)) (name s : String) :
    present_lens (pre ++ (name, some s) :: post) =
      present_lens pre ++ i32_of (strlen s) :: present_lens post := by
  simp [present_lens]

theorem present_lens_cons_length (y : String × Option String)
    (l : List (String × Option String)) :
    (present_lens (y :: l)).length =
      (if y.2.isSome then 1 else 0) + (present_lens l).length := by
  obtain ⟨nm, fld⟩ := y
  cases fld with
  | none => simp [present_lens]
  | some v => simp [present_lens]; omega

theorem split_unique : ∀ (pre pre0 post post0 : List (String × Option String))
    (name s name0 s0 : String),
    pre ++ (name, some s) :: post = pre0 ++ (name0, some s0) :: post0 →
    (present_lens pre).length = (present_lens pre0).length →
    pre = pre0 ∧ name = name0 ∧ s = s0
  | [], [], _, _, _, _, _, _, h, _ => by
    simp only [List.nil_append, List.cons.injEq, Prod.mk.injEq, Option.some.injEq] at h
    exact ⟨rfl, h.1.1, h.1.2⟩
  | [], y :: pre0, _, _, _, _, _, _, h, hc => by
    simp only [List.nil_append, List.cons_append, List.cons.injEq] at h
    rw [present_lens_cons_length, ← h.1] at hc
    simp only [present_lens, List.filterMap_nil, List.length_nil, Option.isSome_some,
      if_true] at hc
    omega
  | y :: pre, [], _, _, _, _, _, _, h, hc => by
    simp only [List.nil_append, List.cons_append, List.cons.injEq] at h
    rw [present_lens_cons_length, h.1] at hc
    simp only [present_lens, List.filterMap_nil, List.length_nil, Option.isSome_some,
      if_true] at hc
    omega
  | y :: pre, z :: pre0, post, post0, name, s, name0, s0, h, hc => by
    simp only [List.cons_append, List.cons.injEq] at h
    obtain ⟨hy, ht⟩ := h
    subst hy
    rw [present_lens_cons_length, present_lens_cons_length] at hc
    obtain ⟨h1, h2, h3⟩ := split_unique pre pre0 post post0 name s name0 s0 ht (by omega)
    exact ⟨by rw [h1], h2, h3⟩

theorem pair_args_split : ∀ (pre : List (String × Option String)) (ys : List (Option String))
    (addrs : List Nat),
    pair_args (pre.map Prod.snd ++ ys) addrs =
      pair_args (pre.map Prod.snd) addrs ++ pair_args ys (addrs.drop (present_lens pre).length)
  | [], ys, addrs => by simp [pair_args, present_lens]
  | (nm, none) :: pre, ys, addrs => by
    have ih := pair_args_split pre ys addrs
    rw [present_lens_cons_length]
    simp [pair_args, ih]
  | (nm, some s) :: pre, ys, [] => by
    have ih := pair_args_split pre ys []
    rw [present_lens_cons_length]
    simp only [List.drop_nil] at ih ⊢
    simp [pair_args, ih]
  | (nm, some s) :: pre, ys, a :: addrs => by
    have ih := pair_args_split pre ys addrs
    rw [present_lens_cons_length]
    simp [pair_args, ih, Nat.add_comm 1]

/-- C10, amended: take a present field and the allocator call that a run of
`csr_gen` makes for it.  The run takes the allocation-error exit of that
field, making no further allocator call and no generate call, if and only if
the call returned an error or returned the address `0xFFFFFFFF`, the pattern
of `-1`.  In that case the address is not recorded and the returned error is
the one naming the field, unless a free of the cleanup fails, and then it is
the error of the last failed free.  Every other address returned without
error is recorded in the allocation set, at the position of the field among
the present fields, and in the generate call, when the run makes one, it is
the pointer of the pair of that field, followed by the length of the field. -/
theorem csr_gen_allocation_error_iff {σ : Type} (sgn : Bool) (rt : csr_vm σ) (vm : σ)
    (uninit : csr_result) (kp kl : Nat) (parameters : csr_parameters)
    (pre : List (String × Option String)) (name s : String)
    (post : List (String × Option String)) (n : Nat) (r : wasm_vm_result)
    (hfield : fields parameters = pre ++ (name, some s) :: post)
    (hcall : (malloc_calls (csr_gen sgn rt vm uninit kp kl parameters).w.trace)[
      (present_lens pre).length]? = some (n, r)) :
    n = i32_of (strlen s) ∧
    ((r.err ≠ none ∨ i32_of r.data = MINUS_ONE) ↔
      ((malloc_calls (csr_gen sgn rt vm uninit kp kl parameters).w.trace).length =
          (present_lens pre).length + 1 ∧
        generate_calls (csr_gen sgn rt vm uninit kp kl parameters).w.trace = [])) ∧
    ((r.err ≠ none ∨ i32_of r.data = MINUS_ONE) →
      ((csr_gen_to_bail rt vm uninit kp kl parameters).pointers.take
        (csr_gen_to_bail rt vm uninit kp kl parameters).i).length = (present_lens pre).length ∧
      (csr_gen sgn rt vm uninit kp kl parameters).result.err =
        first_some (last_free_err (csr_gen sgn rt vm uninit kp kl parameters).w.trace)
          (some ("error during allocating ptr with length for " ++ name)) ∧
      ((∀ p q, Event.free p q ∈ (csr_gen sgn rt vm uninit kp kl parameters).w.trace →
          q.err = none) →
        (csr_gen sgn rt vm uninit kp kl parameters).result.err =
          some ("error during allocating ptr with length for " ++ name))) ∧
    (r.err = none → i32_of r.data ≠ MINUS_ONE →
      ((csr_gen_to_bail rt vm uninit kp kl parameters).pointers.take
        (csr_gen_to_bail rt vm uninit kp kl parameters).i)[(present_lens pre).length]? =
          some (i32_of r.data) ∧
      ∀ args res, Event.generate args res ∈ (csr_gen sgn rt vm uninit kp kl parameters).w.trace →
        ∃ before after : List Nat,
          args = kp :: kl :: (before ++ i32_of r.data :: i32_of (strlen s) :: after) ∧
          before.length = 2 * pre.length) := by
  have hpl : present_lens (fields parameters) =
      present_lens pre ++ i32_of (strlen s) :: present_lens post := by
    rw [hfield, present_lens_split]
  have hidx : (present_lens (fields parameters))[(present_lens pre).length]? =
      some (i32_of (strlen s)) := by
    rw [hpl, List.getElem?_append_right (le_refl _)]; simp
  rcases csr_gen_shape sgn rt vm uninit kp kl parameters with
    ⟨A, r0, pre0, name0, s0, post0, F, hfs, hbad, ht, hok, hs, hF, hr, hP⟩ |
    ⟨A, res0, F, ht, hok, hs, hF, hr, hP⟩
  · have hmc : malloc_calls (csr_gen sgn rt vm uninit kp kl parameters).w.trace =
        A ++ [(i32_of (strlen s0), r0)] := by
      rw [ht, malloc_calls_append, malloc_calls_append, malloc_calls_malloc, malloc_calls_free]
      simp [malloc_calls]
    have hgc : generate_calls (csr_gen sgn rt vm uninit kp kl parameters).w.trace = [] := by
      rw [ht, generate_calls_append, generate_calls_append, generate_calls_malloc,
        generate_calls_free]
      simp [generate_calls]
    have hAlen : A.length = (present_lens pre0).length := by rw [← hs]; simp
    rw [hmc] at hcall
    rcases Nat.lt_trichotomy (present_lens pre).length A.length with hlt | heq | hgt
    · rw [List.getElem?_append_left hlt] at hcall
      have hmem : (n, r) ∈ A := List.getElem?_mem hcall
      obtain ⟨hre, hrm⟩ := hok _ hmem
      simp only [returned_addr] at hrm
      have hn : n = i32_of (strlen s) := by
        have h1 : (A.map Prod.fst)[(present_lens pre).length]? = some n := by
          rw [List.getElem?_map, hcall]; rfl
        rw [hs] at h1
        have h2 : (present_lens (fields parameters))[(present_lens pre).length]? = some n := by
          rw [hfs, present_lens_split, List.getElem?_append_left (by omega)]
          exact h1
        rw [hidx] at h2
        exact (Option.some.inj h2).symm
      refine ⟨hn, ⟨?_, ?_⟩, ?_, ?_⟩
      · rintro (h | h)
        · exact absurd hre h
        · exact absurd h hrm
      · rintro ⟨hl, _⟩
        rw [hmc] at hl
        simp at hl
        omega
      · rintro (h | h)
        · exact absurd hre h
        · exact absurd h hrm
      · intro _ _
        refine ⟨?_, ?_⟩
        · rw [hP, List.getElem?_map, hcall]; rfl
        · intro args res hg
          rw [ht] at hg
          exact absurd hg (generate_not_mem_bail A F _ r0 args res)
    · rw [heq] at hcall
      simp at hcall
      obtain ⟨hn0, hr0⟩ := hcall
      subst hr0
      obtain ⟨hpre, hname, hstr⟩ := split_unique pre pre0 post post0 name s name0 s0
        (by rw [← hfield, hfs]) (by omega)
      subst hpre
      subst hname
      subst hstr
      have hle : last_free_err (csr_gen sgn rt vm uninit kp kl parameters).w.trace =
          last_free_err (F.map free_event) := by
        rw [ht]
        exact last_free_err_shape A F _ rfl
      refine ⟨hn0.symm, ⟨fun _ => ⟨by rw [hmc]; simp; omega, hgc⟩, fun _ => hbad⟩, ?_, ?_⟩
      · intro _
        refine ⟨by rw [hP]; simp; omega, by rw [hle, hr]; rfl, ?_⟩
        intro hfree
        rw [hr, last_free_err_none F
          (fun x hx => hfree x.1 x.2 (by rw [ht, free_mem_iff]; exact Or.inl hx))]
        rfl
      · intro h1 h2
        rcases hbad with h | h
        · exact absurd h1 h
        · exact absurd h h2
    · rw [List.getElem?_eq_none (by simp; omega)] at hcall
      cases hcall
  · have hmc : malloc_calls (csr_gen sgn rt vm uninit kp kl parameters).w.trace = A := by
      rw [ht, malloc_calls_append, malloc_calls_append, malloc_calls_malloc, malloc_calls_free]
      simp [malloc_calls]
    have hgc : generate_calls (csr_gen sgn rt vm uninit kp kl parameters).w.trace ≠ [] := by
      rw [ht, generate_calls_append, generate_calls_append, generate_calls_malloc,
        generate_calls_free]
      simp [generate_calls]
    rw [hmc] at hcall
    have hmem : (n, r) ∈ A := List.getElem?_mem hcall
    obtain ⟨hre, hrm⟩ := hok _ hmem
    simp only [returned_addr] at hrm
    have hn : n = i32_of (strlen s) := by
      have h1 : (A.map Prod.fst)[(present_lens pre).length]? = some n := by
        rw [List.getElem?_map, hcall]; rfl
      rw [hs, hidx] at h1
      exact (Option.some.inj h1).symm
    refine ⟨hn, ⟨?_, ?_⟩, ?_, ?_⟩
    · rintro (h | h)
      · exact absurd hre h
      · exact absurd h hrm
    · rintro ⟨_, hg⟩
      exact absurd hg hgc
    · rintro (h | h)
      · exact absurd hre h
      · exact absurd h hrm
    · intro _ _
      refine ⟨?_, ?_⟩
      · rw [hP, List.getElem?_map, hcall]; rfl
      · intro args res hg
        rw [ht] at hg
        obtain ⟨ha, _⟩ := generate_mem_gen hg
        have hsnd : (fields parameters).map Prod.snd =
            pre.map Prod.snd ++ some s :: post.map Prod.snd := by
          rw [hfield]; simp
        have hdrop : (A.map returned_addr).drop (present_lens pre).length =
            i32_of r.data :: (A.map returned_addr).drop ((present_lens pre).length + 1) := by
          have hk : (A.map returned_addr)[(present_lens pre).length]? = some (i32_of r.data) := by
            rw [List.getElem?_map, hcall]; rfl
          obtain ⟨hlt, hget⟩ := List.getElem?_eq_some.mp hk
          rw [← hget]
          exact List.drop_eq_getElem_cons hlt
        refine ⟨pair_args (pre.map Prod.snd) (A.map returned_addr),
          pair_args (post.map Prod.snd)
            ((A.map returned_addr).drop ((present_lens pre).length + 1)), ?_, ?_⟩
        · rw [ha, hsnd, pair_args_split, hdrop]
          simp [pair_args]
        · rw [pair_args_length]; simp

/-- Two runs of C10 (amended), with `dns` and `email` present.  In the first
the call for `email` is answered with an error: no generate call is made and
the returned error names `email`.  In the second every call succeeds: the
address `0x200` answered for `dns` is the first entry of the allocation set
and the pointer of the `dns` pair of the generate call. -/
theorem csr_gen_allocation_error_iff_witness :
    fields dns_and_email = [("subject", none), ("dns", some "a.example"), ("uri", none)] ++
      ("email", some "a@b.c") :: [("ip", none)] ∧
    (malloc_calls (csr_gen true scripted [ok 0x200, failed "oom"] clean_slot 64 32
      dns_and_email).w.trace)[1]? = some (5, failed "oom") ∧
    generate_calls (csr_gen true scripted [ok 0x200, failed "oom"] clean_slot 64 32
      dns_and_email).w.trace = [] ∧
    (csr_gen true scripted [ok 0x200, failed "oom"] clean_slot 64 32
      dns_and_email).result.err = some "error during allocating ptr with length for email" ∧
    ((csr_gen true scripted [ok 0x200, failed "oom"] clean_slot 64 32
        dns_and_email).result.err =
      first_some (last_free_err (csr_gen true scripted [ok 0x200, failed "oom"] clean_slot 64 32
          dns_and_email).w.trace)
        (some ("error during allocating ptr with length for " ++ "email"))) ∧
    (malloc_calls (csr_gen true scripted [ok 0x200, ok 0x400, ok (packed 0x1000 42)]
      clean_slot 64 32 dns_and_email).w.trace)[0]? = some (9, ok 0x200) ∧
    Event.generate [64, 32, 0, 0, 0x200, 9, 0, 0, 0x400, 5, 0, 0] (ok (packed 0x1000 42)) ∈
      (csr_gen true scripted [ok 0x200, ok 0x400, ok (packed 0x1000 42)]
        clean_slot 64 32 dns_and_email).w.trace ∧
    (∃ before after : List Nat,
      [64, 32, 0, 0, 0x200, 9, 0, 0, 0x400, 5, 0, 0] =
        64 :: 32 :: (before ++ i32_of (ok 0x200).data :: i32_of (strlen "a.example") :: after) ∧
      before.length = 2 * [("subject", (none : Option String))].length) :=
  ⟨by decide, by decide, by decide, by decide,
    ((csr_gen_allocation_error_iff true scripted [ok 0x200, failed "oom"] clean_slot 64 32
      dns_and_email [("subject", none), ("dns", some "a.example"), ("uri", none)]
      "email" "a@b.c" [("ip", none)] 5 (failed "oom") (by decide) (by decide)).2.2.1
        (Or.inl (by decide))).2.1,
    by decide, by decide,
    ((csr_gen_allocation_error_iff true scripted [ok 0x200, ok 0x400, ok (packed 0x1000 42)]
      clean_slot 64 32 dns_and_email [("subject", none)] "dns" "a.example"
      [("uri", none), ("email", some "a@b.c"), ("ip", none)] 9 (ok 0x200)
      (by decide) (by decide)).2.2.2 (by decide) (by decide)).2
        [64, 32, 0, 0, 0x200, 9, 0, 0, 0x400, 5, 0, 0] (ok (packed 0x1000 42)) (by decide)⟩

end Csr
